import Mathlib

/-!
# WeChat MP Editor – insert HTML: a verification development

A shallow embedding of the Context Locator (`findCtx`) and of the Insertion
Engine (`snapshotEditor`, `moveCaretToEnd`, `tryPasteHTML`, `fallbackInsert`,
`insertHTML`) of `Wechat-MP-Editor.js`, followed by theorems about them.

Conventions of the embedding.

* A JavaScript string is the list of its UTF-16 code units; `length` and
  `slice` count code units, and the regular expression `/<[^>]+>/g` (which has
  no `u` flag) matches code units.
* The browser is not part of the program.  What the program can observe of it
  is given by an environment `Env` (which calls raise, which selection objects
  the windows and documents hand out, what the host editor does with a paste
  event, ...), fixed during a call, and by a mutable `World` (state of the
  editor element, state of the selection objects, focus, and a log of every
  DOM call that was made).
* A statement that may raise returns `Except Err α` together with the world it
  leaves behind, so that effects made before a raise are not undone; `andThen`
  sequences two statements, and every `try`/`catch` of the source is an
  explicit `match` on the outcome.
* A DOM call that raises has no other effect.
* The call `focus()` does nothing on an element that has the focus already or
  cannot take it; otherwise the element gains the focus and the browser may
  move the selection (`Env.focusSelections`), typically to a caret inside the
  editor.
* The call `sel.addRange(r)` is ignored when the selection has a range
  already, and when the root of `r` is not the document of the selection
  (`Env.acceptsRange`), as for an editor that has been removed.
* The call `insertAdjacentHTML('beforeend', html)` parses `html` and appends
  the nodes; the serialized content grows by the serialization of those nodes
  (`Env.serializeFragment`), which need not be `html` itself.
* The two `await`ed timers are points where the host may act.  During the
  20 ms timer nothing is assumed to happen; during the 30 ms timer the host
  completes its handling of the paste (`Env.settle`).
* Widths are natural numbers of layout units (a rendered width is never
  negative), so `width > 0` and `width ≠ 0` agree.
-/

namespace WechatMPEditor

/-! ## Strings -/

/-- One UTF-16 code unit. -/
abbrev CodeUnit := Nat

/-- A JavaScript string: its sequence of UTF-16 code units. -/
abbrev JSString := List CodeUnit

/-- UTF-16 encoding of one Unicode scalar value. -/
def utf16Char (c : Char) : JSString :=
  if c.toNat < 65536 then [c.toNat]
  else [55296 + (c.toNat - 65536) / 1024, 56320 + (c.toNat - 65536) % 1024]

/-- UTF-16 encoding of a string literal. -/
def utf16 (s : String) : JSString :=
  s.toList.flatMap utf16Char

/-- Code unit of the character `<`. -/
def chLt : CodeUnit := 60

/-- Code unit of the character `>`. -/
def chGt : CodeUnit := 62

/-- Code unit of the character `|`. -/
def chBar : CodeUnit := 124

/-- Auxiliary loop of `decimal`: pushes the digits of `n`, least significant
first, in front of `acc`. -/
def decimalAux : Nat → Nat → JSString → JSString
  | 0, _, acc => acc
  | fuel + 1, n, acc =>
    if n / 10 = 0 then (48 + n % 10) :: acc
    else decimalAux fuel (n / 10) ((48 + n % 10) :: acc)

/-- Number-to-string conversion of a non-negative integer, as performed by
`number + string`: the decimal digits, most significant first. -/
def decimal (n : Nat) : JSString :=
  decimalAux (n + 1) n []

/-! ## The regular expression `/<[^>]+>/g` -/

/-- The character class `[^>]`. -/
def notGt (u : CodeUnit) : Bool :=
  decide (u ≠ chGt)

/-- Length of the match of `<[^>]+>` anchored at the start of `s`, if there is
one: a `<`, then the maximal non-empty run of code units other than `>`, then a
`>`.  (The run is maximal because `[^>]+` is greedy, and no shorter run can be
followed by `>`.) -/
def tagMatchLen : JSString → Option Nat
  | [] => none
  | c :: cs =>
    if c = chLt then
      let k := (cs.takeWhile notGt).length
      if k = 0 then none
      else
        match cs.drop k with
        | [] => none
        | _ :: _ => some (k + 2)
    else none

/-- Scanner of `replaceTags`.  `skip` is the number of code units of the
current match that are still to be dropped. -/
def replaceTagsFrom : Nat → JSString → JSString
  | _, [] => []
  | skip + 1, _ :: cs => replaceTagsFrom skip cs
  | 0, c :: cs =>
    match tagMatchLen (c :: cs) with
    | some n => replaceTagsFrom (n - 1) cs
    | none => c :: replaceTagsFrom 0 cs

/-- The expression `html.replace(/<[^>]+>/g, '')`: every match, found left to
right, is removed. -/
def replaceTags (html : JSString) : JSString :=
  replaceTagsFrom 0 html

/-- The expression `s || ''` for a string `s`. -/
def orEmpty (s : JSString) : JSString :=
  if s = [] then [] else s

/-- The expression `s.slice(0, n)`. -/
def slice0 (n : Nat) (s : JSString) : JSString :=
  s.take n

/-! ## Clipboard payload -/

/-- Item list of a `DataTransfer` object: format and data. -/
abbrev DataTransfer := List (JSString × JSString)

/-- The call `dt.setData(format, data)`: replaces the item of that format or
adds it. -/
def setData (format data : JSString) : DataTransfer → DataTransfer
  | [] => [(format, data)]
  | (f, d) :: rest =>
    if f = format then (format, data) :: rest else (f, d) :: setData format data rest

/-- The call `dt.getData(format)`: the data of that format, or the empty
string. -/
def getData (format : JSString) : DataTransfer → JSString
  | [] => []
  | (f, d) :: rest => if f = format then d else getData format rest

/-- The format `'text/html'`. -/
def textHtml : JSString := utf16 "text/html"

/-- The format `'text/plain'`. -/
def textPlain : JSString := utf16 "text/plain"

/-- The plain-text fallback of `tryPasteHTML`:
`(html.replace(/<[^>]+>/g, '') || '').slice(0, 64)`. -/
def plainTextOf (html : JSString) : JSString :=
  slice0 64 (orEmpty (replaceTags html))

/-- The payload after the first `setData` of `tryPasteHTML`. -/
def payloadHtml (html : JSString) : DataTransfer :=
  setData textHtml html []

/-- The payload after both `setData` calls of `tryPasteHTML`. -/
def clipboardPayload (html : JSString) : DataTransfer :=
  setData textPlain (plainTextOf html) (payloadHtml html)

/-! ## Editor snapshot -/

/-- Observable state of the editor element. -/
structure EditorState where
  /-- Value of `editor.innerHTML`: the serialized content. -/
  innerHTML : JSString
  /-- Value of `editor.childNodes.length`. -/
  childNodes : Nat
  deriving DecidableEq, Repr

/-- The function `snapshotEditor(editor)`:
`editor.innerHTML.length + '|' + editor.childNodes.length`. -/
def snapshotEditor (editor : EditorState) : JSString :=
  decimal editor.innerHTML.length ++ [chBar] ++ decimal editor.childNodes

/-! ## The page seen by the Context Locator -/

/-- Errors raised by the browser. -/
inductive Err where
  /-- A property of `null` or `undefined` was read. -/
  | typeError
  /-- A DOM call raised (for instance a `SecurityError`). -/
  | domException
  deriving DecidableEq, Repr

deriving instance DecidableEq for Except

/-- An element, as far as the program looks at it. -/
structure Element where
  /-- Identity of the node. -/
  id : Nat
  /-- Value of `el.getBoundingClientRect().width`, in layout units. -/
  width : Nat
  deriving DecidableEq, Repr

/-- A document, as far as the program looks at it. -/
structure Document where
  /-- Identity of the document. -/
  id : Nat
  /-- Result of `doc.querySelector('div.ProseMirror[contenteditable="true"]')`:
  the first marker element, or null. -/
  marker : Option Element
  deriving DecidableEq, Repr

/-- A window, as far as the program looks at it. -/
structure Window where
  /-- Identity of the window. -/
  id : Nat
  /-- Outcome of reading `win.document`; it raises for a cross-origin window. -/
  document : Except Err (Option Document)
  deriving DecidableEq

/-- An `iframe` element of the top document. -/
structure Frame where
  /-- Outcome of reading `f.contentDocument`. -/
  contentDocument : Except Err (Option Document)
  /-- Value of `f.contentWindow`. -/
  contentWindow : Option Window
  /-- Value of `f.getBoundingClientRect().width`, in layout units. -/
  width : Nat
  deriving DecidableEq

/-- The page in which the script runs. -/
structure Page where
  /-- The global `document`. -/
  document : Document
  /-- The global `window`. -/
  window : Window
  /-- `Array.from(doc.querySelectorAll('iframe'))`, in document order. -/
  frames : List Frame
  deriving DecidableEq

/-- The object `{doc, win, editor}` returned by `findCtx`. -/
structure Ctx where
  /-- The document of the editor's realm. -/
  doc : Document
  /-- The window of the editor's realm. -/
  win : Option Window
  /-- The editor element, or null when none was found. -/
  editor : Option Element
  deriving DecidableEq

/-- The expression `f.contentDocument || f.contentWindow?.document`. -/
def frameDocument (f : Frame) : Except Err (Option Document) :=
  match f.contentDocument with
  | .error e => .error e
  | .ok (some d) => .ok (some d)
  | .ok none =>
    match f.contentWindow with
    | none => .ok none
    | some w => w.document

/-- Body of the `try` block of `findCtx` for one frame: `some ctx` when the
frame is accepted (the assignments followed by `break`), `none` when the loop
goes on to the next frame. -/
def tryFrame (f : Frame) : Except Err (Option Ctx) :=
  match frameDocument f with
  | .error e => .error e
  | .ok none => .ok none
  | .ok (some fd) =>
    match fd.marker with
    | none => .ok none
    | some ed =>
      if f.width > 0 then .ok (some { doc := fd, win := f.contentWindow, editor := some ed })
      else .ok none

/-- The loop `for (const f of ifrs) { try { ... } catch (e) {} }` of `findCtx`;
`cur` holds the current values of `doc`, `win` and `editor`. -/
def scanFrames (cur : Ctx) : List Frame → Except Err Ctx
  | [] => .ok cur
  | f :: rest =>
    match tryFrame f with
    | .ok (some c) => .ok c
    | .ok none => scanFrames cur rest
    | .error _ => scanFrames cur rest

/-- The function `findCtx()`. -/
def findCtx (page : Page) : Except Err Ctx :=
  match page.document.marker with
  | some ed => .ok { doc := page.document, win := some page.window, editor := some ed }
  | none =>
    scanFrames { doc := page.document, win := some page.window, editor := none } page.frames

/-- The context of an accepted frame: its nested document, its window and the
marker element of that document. -/
def frameCtx (f : Frame) : Option Ctx :=
  match frameDocument f with
  | .ok (some fd) => some { doc := fd, win := f.contentWindow, editor := fd.marker }
  | _ => none

/-- A frame `findCtx` accepts: the nested document is readable and has a
marker element, and the frame itself has a positive rendered width. -/
def frameAccepted (f : Frame) : Bool :=
  match frameDocument f with
  | .ok (some fd) => fd.marker.isSome && decide (f.width > 0)
  | _ => false

/-- A frame whose nested document can be read without raising. -/
def frameReadable (f : Frame) : Bool :=
  match frameDocument f with
  | .ok _ => true
  | .error _ => false

/-- The page with the frames removed whose nested document cannot be read. -/
def removeUnreadable (page : Page) : Page :=
  { page with frames := page.frames.filter frameReadable }

/-- A frame as the specification describes an accepted one: the nested
document is readable and has a marker element, and that candidate editor
element has a non-zero rendered width. -/
def frameAcceptedBySpec (f : Frame) : Bool :=
  match frameDocument f with
  | .ok (some fd) =>
    match fd.marker with
    | some ed => decide (ed.width ≠ 0)
    | none => false
  | _ => false

/-- The locator as the specification describes it: the context of the first
frame, in document order, accepted by `frameAcceptedBySpec`, and the
not-found context when there is none. -/
def findCtxBySpec (page : Page) : Ctx :=
  match page.document.marker with
  | some ed => { doc := page.document, win := some page.window, editor := some ed }
  | none =>
    match (page.frames.find? frameAcceptedBySpec).bind frameCtx with
    | some c => c
    | none => { doc := page.document, win := some page.window, editor := none }

/-! ## The world of the Insertion Engine -/

/-- A DOM range: its two boundary points. -/
structure Range where
  /-- Node of the start boundary point. -/
  startContainer : Nat
  /-- Offset of the start boundary point. -/
  startOffset : Nat
  /-- Node of the end boundary point. -/
  endContainer : Nat
  /-- Offset of the end boundary point. -/
  endOffset : Nat
  deriving DecidableEq, Repr

/-- State of a `Selection` object. -/
structure Selection where
  /-- The ranges of the selection; `rangeCount` is the length of this list. -/
  ranges : List Range
  /-- Value of `sel.anchorNode`. -/
  anchorNode : Option Nat
  deriving DecidableEq, Repr

/-- The three places from which the program reads a selection object. -/
inductive SelSource where
  /-- The call `ctx.win.getSelection()`. -/
  | ctxWin
  /-- The call `window.getSelection()` on the global window. -/
  | globalWin
  /-- The call `ctx.doc.getSelection()`. -/
  | ctxDoc
  deriving DecidableEq, Repr

/-- DOM primitives whose only outcomes are to complete or to raise. -/
inductive Prim where
  /-- The call `ctx.editor.focus()`. -/
  | focus
  /-- The call `doc.createRange()`. -/
  | createRange
  /-- The call `r.selectNodeContents(el)`. -/
  | selectNodeContents
  /-- The call `r.collapse(false)`. -/
  | collapse
  /-- The call `sel.removeAllRanges()`. -/
  | removeAllRanges
  /-- The call `sel.addRange(r)`. -/
  | addRange
  /-- The construction `new DT()`. -/
  | newDataTransfer
  /-- The call `dt.setData('text/html', html)`. -/
  | setDataHtml
  /-- The call `dt.setData('text/plain', ...)`. -/
  | setDataPlain
  /-- The construction `new CE('paste', ...)`. -/
  | newClipboardEvent
  /-- The call `Object.defineProperty(evt, 'clipboardData', ...)`. -/
  | defineProperty
  deriving DecidableEq, Repr

/-- One entry of the execution log. -/
inductive Event where
  /-- A primitive was called. -/
  | call (p : Prim)
  /-- A selection object was read from the given place. -/
  | getSelection (src : SelSource)
  /-- The program awaited a timer of `ms` milliseconds. -/
  | timeout (ms : Nat)
  /-- The paste event carrying `payload` was dispatched at the editor. -/
  | dispatchEvent (payload : DataTransfer)
  /-- The function `tryPasteHTML` returned `ok`. -/
  | pasteReturned (ok : Bool)
  /-- The legacy command `execCommand('insertHTML', false, html)` was invoked;
  `raised` tells whether it raised. -/
  | execCommand (html : JSString) (raised : Bool)
  /-- The trailing append `insertAdjacentHTML('beforeend', html)` was invoked;
  `raised` tells whether it raised. -/
  | insertAdjacentHTML (html : JSString) (raised : Bool)
  deriving DecidableEq, Repr

/-- The mutable state the Insertion Engine acts on. -/
structure World where
  /-- State of the editor element `ctx.editor`. -/
  editor : EditorState
  /-- Whether the editor element has the focus. -/
  focused : Bool
  /-- State of every selection object, by identity. -/
  selections : Nat → Selection
  /-- Every call made so far, oldest first. -/
  log : List Event

/-- The behaviour of the browser and of the host editor. -/
structure Env where
  /-- The global `window` of the script. -/
  window : Window
  /-- Which primitives raise. -/
  raises : Prim → Bool
  /-- Whether the editor element can take the focus. -/
  focusable : Bool
  /-- What the browser and the host do to the selection objects when the
  editor gains the focus. -/
  focusSelections : (Nat → Selection) → (Nat → Selection)
  /-- Whether the selection object accepts a range of the editor: whether the
  root of the editor is the document of that selection. -/
  acceptsRange : Nat → Bool
  /-- Outcome of `win.getSelection()`: the identity of a selection object,
  null, or an error. -/
  getSelection : Window → Except Err (Option Nat)
  /-- Outcome of `doc.getSelection()`. -/
  docGetSelection : Document → Except Err (Option Nat)
  /-- The nodes that are proper descendants of the editor element. -/
  descendant : Nat → Bool
  /-- Whether `win.DataTransfer` is truthy. -/
  hasDataTransfer : Window → Bool
  /-- Whether `win.ClipboardEvent` is truthy. -/
  hasClipboardEvent : Window → Bool
  /-- What the host does with the dispatched paste event: the new editor state
  and the return value of `dispatchEvent`, or an error. -/
  dispatchEvent : EditorState → DataTransfer → Except Err (EditorState × Bool)
  /-- What the host does to the editor during the 30 ms yield. -/
  settle : EditorState → EditorState
  /-- Outcome of `doc.execCommand('insertHTML', false, html)`: the new editor
  state, or an error. -/
  execCommand : World → JSString → Except Err EditorState
  /-- Whether `editor.insertAdjacentHTML('beforeend', html)` raises. -/
  insertAdjacentRaises : World → JSString → Bool
  /-- Serialization of the nodes a fragment parses into, in the context of the
  editor element. -/
  serializeFragment : JSString → JSString
  /-- Number of top-level nodes a fragment parses into. -/
  fragmentNodes : JSString → Nat

/-- Result of a computation that may raise, with the world it leaves. -/
abbrev Res (α : Type) := Except Err α × World

/-- The world with one more log entry. -/
def World.record (w : World) (e : Event) : World :=
  { w with log := w.log ++ [e] }

/-- Sequencing of two statements: when the first raised, the exception
propagates and the continuation is not run. -/
def andThen {α β : Type} (r : Res α) (k : α → World → Res β) : Res β :=
  match r with
  | (.error e, w) => (.error e, w)
  | (.ok a, w) => k a w

/-- A primitive call: it is logged, then raises or has its effect. -/
def prim (env : Env) (p : Prim) (effect : World → World) (w : World) : Res Unit :=
  if env.raises p then (.error .domException, w.record (.call p))
  else (.ok (), effect (w.record (.call p)))

/-- The world in which the selection object `s` has state `v`. -/
def World.setSelection (w : World) (s : Nat) (v : Selection) : World :=
  { w with selections := Function.update w.selections s v }

/-! ## Caret establishment -/

/-- The range built by `moveCaretToEnd`: `selectNodeContents(el)` spans from
offset 0 to the number of children of `el`, and `collapse(false)` moves the
start onto the end. -/
def caretRange (el : Element) (editor : EditorState) : Range :=
  { startContainer := el.id, startOffset := editor.childNodes,
    endContainer := el.id, endOffset := editor.childNodes }

/-- The selection holding exactly the range `r`. -/
def Selection.single (r : Range) : Selection :=
  { ranges := [r], anchorNode := some r.startContainer }

/-- Effect of `sel.removeAllRanges()`. -/
def Selection.removeAllRanges (_ : Selection) : Selection :=
  { ranges := [], anchorNode := none }

/-- Effect of `sel.addRange(r)`; `accepted` tells whether the root of `r` is
the document of the selection.  A range of another document is ignored, and a
selection that already has a range keeps it. -/
def Selection.addRange (r : Range) (accepted : Bool) (sel : Selection) : Selection :=
  if accepted && decide (sel.ranges.length = 0) then Selection.single r else sel

/-- Effect of `ctx.editor.focus()`: nothing when the editor cannot take the
focus or has it already; otherwise the editor gains the focus and the
selection objects change as the browser decides. -/
def focusEditor (env : Env) (w : World) : World :=
  if env.focusable && !w.focused then
    { w with focused := true, selections := env.focusSelections w.selections }
  else w

/-- The function `moveCaretToEnd(el, doc, sel)`; `sel` is the identity of a
selection object, or null, in which case `sel.removeAllRanges()` raises a
`TypeError`. -/
def moveCaretToEnd (env : Env) (el : Element) (sel : Option Nat) (w : World) : Res Unit :=
  andThen (prim env .createRange id w) fun _ w1 =>
  andThen (prim env .selectNodeContents id w1) fun _ w2 =>
  andThen (prim env .collapse id w2) fun _ w3 =>
    match sel with
    | none => (.error .typeError, w3)
    | some s =>
      andThen (prim env .removeAllRanges
        (fun v => v.setSelection s (v.selections s).removeAllRanges) w3) fun _ w4 =>
      prim env .addRange
        (fun v => v.setSelection s
          ((v.selections s).addRange (caretRange el v.editor) (env.acceptsRange s))) w4

/-- The expression
`(() => { try { return ctx.win.getSelection(); } catch { return window.getSelection(); } })()`. -/
def readSelection (env : Env) (ctx : Ctx) (w : World) : Res (Option Nat) :=
  match ctx.win with
  | none =>
    (env.getSelection env.window, w.record (.getSelection .globalWin))
  | some win =>
    match env.getSelection win with
    | .ok s => (.ok s, w.record (.getSelection .ctxWin))
    | .error _ =>
      (env.getSelection env.window,
        (w.record (.getSelection .ctxWin)).record (.getSelection .globalWin))

/-- The call `ctx.editor.contains(node)`: true for the editor itself and for its
descendants, false for null. -/
def editorContains (env : Env) (el : Element) : Option Nat → Bool
  | none => false
  | some n => n == el.id || env.descendant n

/-- The condition `sel && sel.rangeCount > 0 && ctx.editor.contains(sel.anchorNode)`. -/
def hasCaret (env : Env) (el : Element) (w : World) : Option Nat → Bool
  | none => false
  | some s =>
    decide ((w.selections s).ranges.length > 0) &&
      editorContains env el (w.selections s).anchorNode

/-- The argument `sel || ctx.doc.getSelection()` of the call of
`moveCaretToEnd`. -/
def caretTarget (env : Env) (ctx : Ctx) (sel : Option Nat) (w : World) : Res (Option Nat) :=
  match sel with
  | some s => (.ok (some s), w)
  | none => (env.docGetSelection ctx.doc, w.record (.getSelection .ctxDoc))

/-- Lines 129 and 130 of `insertHTML`: the call of `moveCaretToEnd` on
`sel || ctx.doc.getSelection()`, then the 20 ms timer. -/
def synthesizeCaret (env : Env) (ctx : Ctx) (el : Element) (sel : Option Nat) (w : World) :
    Res Unit :=
  andThen (caretTarget env ctx sel w) fun target w3 =>
  andThen (moveCaretToEnd env el target w3) fun _ w4 =>
    (.ok (), w4.record (.timeout 20))

/-- Lines 124 to 131 of `insertHTML`: read the selection, and move the caret to
the end of the editor when the selection is not a caret inside the editor. -/
def selectCaret (env : Env) (ctx : Ctx) (el : Element) (w : World) : Res Unit :=
  andThen (readSelection env ctx w) fun sel w2 =>
    if hasCaret env el w2 sel then (.ok (), w2)
    else synthesizeCaret env ctx el sel w2

/-- Lines 123 to 131 of `insertHTML`, the caret-establishment step: focus the
editor, then `selectCaret`. -/
def caretStep (env : Env) (ctx : Ctx) (el : Element) (w : World) : Res Unit :=
  andThen (prim env .focus (focusEditor env) w) fun _ w1 =>
    selectCaret env ctx el w1

/-! ## The three insertion strategies -/

/-- Lines 93 to 101 of `tryPasteHTML`: snapshot, dispatch, yield, snapshot,
and the comparison. -/
def dispatchPaste (env : Env) (ctx : Ctx) (html : JSString) (w : World) : Res Bool :=
  match ctx.editor with
  | none => (.error .typeError, w)
  | some _ =>
    let before := snapshotEditor w.editor
    match env.dispatchEvent w.editor (clipboardPayload html) with
    | .error e => (.error e, w.record (.dispatchEvent (clipboardPayload html)))
    | .ok (ed, ret) =>
      let prevented := !ret
      let after := snapshotEditor (env.settle ed)
      (.ok (decide (before ≠ after) || prevented),
        { (w.record (.dispatchEvent (clipboardPayload html))).record (.timeout 30) with
          editor := env.settle ed })

/-- The body of the `try` block of `tryPasteHTML`. -/
def tryPasteBody (env : Env) (ctx : Ctx) (html : JSString) (w : World) : Res Bool :=
  match ctx.win with
  | none => (.error .typeError, w)
  | some win =>
    if !(env.hasDataTransfer win || env.hasDataTransfer env.window) ||
        !(env.hasClipboardEvent win || env.hasClipboardEvent env.window) then (.ok false, w)
    else
      andThen (prim env .newDataTransfer id w) fun _ w1 =>
      andThen (prim env .setDataHtml id w1) fun _ w2 =>
      andThen (prim env .setDataPlain id w2) fun _ w3 =>
      andThen (prim env .newClipboardEvent id w3) fun _ w4 =>
      andThen (prim env .defineProperty id w4) fun _ w5 =>
        dispatchPaste env ctx html w5

/-- The function `tryPasteHTML(ctx, html)`: the `try` block, and `false` when
it raised. -/
def tryPasteHTML (env : Env) (ctx : Ctx) (html : JSString) (w : World) : Bool × World :=
  match tryPasteBody env ctx html w with
  | (.ok ok, w1) => (ok, w1.record (.pasteReturned ok))
  | (.error _, w1) => (false, w1.record (.pasteReturned false))

/-- The legacy command `ctx.doc.execCommand('insertHTML', false, html)`. -/
def execInsertHTML (env : Env) (html : JSString) (w : World) : Res Unit :=
  match env.execCommand w html with
  | .error e => (.error e, w.record (.execCommand html true))
  | .ok ed => (.ok (), { w with editor := ed }.record (.execCommand html false))

/-- The trailing append `ctx.editor.insertAdjacentHTML('beforeend', html)`: the
nodes the fragment parses into become the last children of the editor, so the
serialized content grows by their serialization. -/
def insertAdjacentHTML (env : Env) (html : JSString) (w : World) : Res Unit :=
  if env.insertAdjacentRaises w html then
    (.error .domException, w.record (.insertAdjacentHTML html true))
  else
    (.ok (),
      { w with editor := { innerHTML := w.editor.innerHTML ++ env.serializeFragment html,
                           childNodes := w.editor.childNodes + env.fragmentNodes html } }.record
        (.insertAdjacentHTML html false))

/-- The function `fallbackInsert(ctx, html)`: the legacy command, then the
trailing append if it raised, then `false` if that raised too. -/
def fallbackInsert (env : Env) (html : JSString) (w : World) : Bool × World :=
  match execInsertHTML env html w with
  | (.ok (), w1) => (true, w1)
  | (.error _, w1) =>
    match insertAdjacentHTML env html w1 with
    | (.ok (), w2) => (true, w2)
    | (.error _, w2) => (false, w2)

/-- The function `insertHTML(ctx, html)`.  Its last lines repeat the body of
`fallbackInsert` instead of calling it. -/
def insertHTML (env : Env) (ctx : Option Ctx) (html : JSString) (w : World) : Res Bool :=
  match ctx with
  | none => (.ok false, w)
  | some c =>
    match c.editor with
    | none => (.ok false, w)
    | some el =>
      andThen (caretStep env c el w) fun _ w1 =>
        match tryPasteHTML env c html w1 with
        | (true, w2) => (.ok true, w2)
        | (false, w2) =>
          match execInsertHTML env html w2 with
          | (.ok (), w3) => (.ok true, w3)
          | (.error _, w3) =>
            match insertAdjacentHTML env html w3 with
            | (.ok (), w4) => (.ok true, w4)
            | (.error _, w4) => (.ok false, w4)

/-! ## Vocabulary for the theorems -/

/-- Whether the realm of the context provides both constructs needed for the
simulated paste: the value of `DT && CE` in `tryPasteHTML`, and `false` when
the window of the context is null. -/
def pasteSupported (env : Env) (ctx : Ctx) : Bool :=
  match ctx.win with
  | none => false
  | some win =>
    (env.hasDataTransfer win || env.hasDataTransfer env.window) &&
      (env.hasClipboardEvent win || env.hasClipboardEvent env.window)

/-- The primitives called by `tryPasteHTML`. -/
def pastePrims : List Prim :=
  [.newDataTransfer, .setDataHtml, .setDataPlain, .newClipboardEvent, .defineProperty]

/-- Log entries of caret establishment and of event construction: primitive
calls, selection reads and timers. -/
def Event.isQuiet : Event → Bool
  | .call _ => true
  | .getSelection _ => true
  | .timeout _ => true
  | _ => false

/-- Log entries that dispatch the paste event. -/
def Event.isDispatch : Event → Bool
  | .dispatchEvent _ => true
  | _ => false

/-- Log entries that are returns of `tryPasteHTML`. -/
def Event.isPasteReturn : Event → Bool
  | .pasteReturned _ => true
  | _ => false

/-- Log entries that are invocations of the legacy command. -/
def Event.isExecCommand : Event → Bool
  | .execCommand _ _ => true
  | _ => false

/-- Log entries that are invocations of the trailing append. -/
def Event.isInsertAdjacent : Event → Bool
  | .insertAdjacentHTML _ _ => true
  | _ => false

/-- The strategy-level entries of a log: returns of `tryPasteHTML`, and
invocations of the legacy command and of the trailing append. -/
def Event.isStrategy : Event → Bool
  | .pasteReturned _ => true
  | .execCommand _ _ => true
  | .insertAdjacentHTML _ _ => true
  | _ => false

/-- The entries of the log `after` that were added since the log `before`. -/
def newEvents (before after : List Event) : List Event :=
  after.drop before.length

/-- The strategy-level entries a call of `insertHTML` adds to the log, oldest
first. -/
def strategyTrace (env : Env) (ctx : Ctx) (html : JSString) (w : World) : List Event :=
  (newEvents w.log (insertHTML env (some ctx) html w).2.log).filter Event.isStrategy

/-- Two worlds that differ at most in their logs. -/
def SameState (w v : World) : Prop :=
  w.selections = v.selections ∧ w.editor = v.editor ∧ w.focused = v.focused

/-- The selection without any range. -/
def Selection.empty : Selection :=
  { ranges := [], anchorNode := none }

/-- What `moveCaretToEnd` leaves in the selection object `s` when it
completes: the caret range when the selection accepts it, no range
otherwise. -/
def installedCaret (env : Env) (el : Element) (editor : EditorState) (s : Nat) : Selection :=
  if env.acceptsRange s then Selection.single (caretRange el editor) else Selection.empty

/-- The selection objects after `moveCaretToEnd` on the selection object `s`,
according to the call that raises first, if any. -/
def caretSelections (env : Env) (el : Element) (editor : EditorState) (s : Nat)
    (sels : Nat → Selection) : Nat → Selection :=
  if env.raises .createRange || env.raises .selectNodeContents || env.raises .collapse ||
      env.raises .removeAllRanges then sels
  else if env.raises .addRange then Function.update sels s Selection.empty
  else Function.update sels s (installedCaret env el editor s)

/-- The world `v` is the world `w` after quiet calls: the log grew by quiet
entries and the editor is untouched. -/
def QuietStep (w v : World) : Prop :=
  ∃ t, v.log = w.log ++ t ∧ t.all Event.isQuiet = true ∧ v.editor = w.editor

/-- The world `v` is the world `w` after part of a simulated paste: the log
grew by primitive calls, timers and at most one dispatch of the payload of
`html`. -/
def PasteStep (html : JSString) (w v : World) : Prop :=
  ∃ t, v.log = w.log ++ t ∧ t.filter Event.isStrategy = [] ∧
    (t.filter Event.isDispatch).length ≤ 1 ∧
    ∀ p, Event.dispatchEvent p ∈ t → p = clipboardPayload html

/-! ## Example pages -/

/-- A top document without marker element. -/
def topDocument : Document := { id := 0, marker := none }

/-- The window of the top document. -/
def topWindow : Window := { id := 0, document := .ok (some topDocument) }

/-- An editor element that is laid out 640 units wide. -/
def editorElement : Element := { id := 7, width := 640 }

/-- An editor element that is not rendered: its width is zero. -/
def hiddenEditorElement : Element := { id := 7, width := 0 }

/-- A nested document holding `editorElement`. -/
def nestedDocument : Document := { id := 1, marker := some editorElement }

/-- The window of `nestedDocument`. -/
def nestedWindow : Window := { id := 1, document := .ok (some nestedDocument) }

/-- A same-origin frame, 800 units wide, holding `nestedDocument`. -/
def editorFrame : Frame :=
  { contentDocument := .ok (some nestedDocument), contentWindow := some nestedWindow,
    width := 800 }

/-- A cross-origin frame: `contentDocument` is null and reading the document
of its window raises. -/
def crossOriginFrame : Frame :=
  { contentDocument := .ok none,
    contentWindow := some { id := 2, document := .error .domException }, width := 300 }

/-- A nested document whose marker element is not rendered. -/
def hiddenEditorDocument : Document := { id := 3, marker := some hiddenEditorElement }

/-- A visible frame, 800 units wide, whose editor element has zero width. -/
def frameWithHiddenEditor : Frame :=
  { contentDocument := .ok (some hiddenEditorDocument),
    contentWindow := some { id := 3, document := .ok (some hiddenEditorDocument) },
    width := 800 }

/-- A frame of zero width whose editor element is 640 units wide. -/
def zeroWidthFrame : Frame :=
  { contentDocument := .ok (some nestedDocument), contentWindow := some nestedWindow,
    width := 0 }

/-- A page whose only frame is `frameWithHiddenEditor`. -/
def pageHiddenEditor : Page :=
  { document := topDocument, window := topWindow, frames := [frameWithHiddenEditor] }

/-- A page whose only frame is `zeroWidthFrame`. -/
def pageZeroWidthFrame : Page :=
  { document := topDocument, window := topWindow, frames := [zeroWidthFrame] }

/-- A page with a cross-origin frame followed by the editor frame. -/
def pageNestedEditor : Page :=
  { document := topDocument, window := topWindow, frames := [crossOriginFrame, editorFrame] }

/-! ## Example worlds -/

/-- Selection objects without any range. -/
def emptySelections : Nat → Selection :=
  fun _ => { ranges := [], anchorNode := none }

/-- A world whose editor holds `<p>hello</p>`. -/
def helloWorld : World :=
  { editor := { innerHTML := utf16 "<p>hello</p>", childNodes := 1 }, focused := false,
    selections := emptySelections, log := [] }

/-- The context of the editor in `editorFrame`. -/
def editorCtx : Ctx :=
  { doc := nestedDocument, win := some nestedWindow, editor := some editorElement }

/-- A world whose editor holds `<p>hello</p>` and has the focus, with a
selection that has been emptied. -/
def focusedWorld : World :=
  { helloWorld with focused := true }

/-- What a browser does to the selection when the editor of the examples gains
the focus: a selection anchored in the editor stays, otherwise a caret is
placed at the start of the editor. -/
def caretOnFocus (sels : Nat → Selection) : Nat → Selection :=
  if (sels 0).anchorNode = some 7 ∧ (sels 0).ranges ≠ [] then sels
  else Function.update sels 0
    (Selection.single
      { startContainer := 7, startOffset := 0, endContainer := 7, endOffset := 0 })

/-- A fragment serializer for the examples: it closes the open tag of
`<b>world` and returns every other fragment as it is. -/
def closeOpenTag (html : JSString) : JSString :=
  if html = utf16 "<b>world" then utf16 "<b>world</b>" else html

/-- The realm of the end-to-end scenario: no `DataTransfer` and no
`ClipboardEvent`, the legacy command raises, the trailing append works. -/
def scenarioEnv : Env :=
  { window := topWindow
    raises := fun _ => false
    focusable := true
    focusSelections := caretOnFocus
    acceptsRange := fun _ => true
    getSelection := fun _ => .ok (some 0)
    docGetSelection := fun _ => .ok (some 0)
    descendant := fun _ => false
    hasDataTransfer := fun _ => false
    hasClipboardEvent := fun _ => false
    dispatchEvent := fun ed _ => .ok (ed, true)
    settle := fun ed => ed
    execCommand := fun _ _ => .error .domException
    insertAdjacentRaises := fun _ _ => false
    serializeFragment := closeOpenTag
    fragmentNodes := fun _ => 1 }

/-- The scenario realm in which the trailing append raises too. -/
def failingEnv : Env :=
  { scenarioEnv with insertAdjacentRaises := fun _ _ => true }

/-- A realm whose host editor inserts the pasted HTML as one more child and
does not prevent the default action. -/
def pasteEnv : Env :=
  { scenarioEnv with
    hasDataTransfer := fun _ => true
    hasClipboardEvent := fun _ => true
    dispatchEvent := fun ed dt =>
      .ok ({ innerHTML := ed.innerHTML ++ getData textHtml dt,
             childNodes := ed.childNodes + 1 }, true) }

/-- A realm whose host editor ignores the paste event: the legacy command is
reached, and it works. -/
def legacyEnv : Env :=
  { scenarioEnv with
    hasDataTransfer := fun _ => true
    hasClipboardEvent := fun _ => true
    execCommand := fun v html =>
      .ok { innerHTML := v.editor.innerHTML ++ html, childNodes := v.editor.childNodes + 1 } }

/-- The realm of a context whose frame has been removed from the page: the
window and the document of the context no longer have a selection, so both
`ctx.win.getSelection()` and `ctx.doc.getSelection()` return null, and the
editor cannot take the focus. -/
def detachedEnv : Env :=
  { scenarioEnv with
    focusable := false
    acceptsRange := fun _ => false
    getSelection := fun _ => .ok none
    docGetSelection := fun _ => .ok none }

/-- A realm whose window hands out no selection object while its document
does: the selection is then read with `ctx.doc.getSelection()`. -/
def docSelectionEnv : Env :=
  { scenarioEnv with getSelection := fun _ => .ok none }

/-- The realm of a context whose editor element has been removed from its
document (the host has remounted its editor): the window still hands out its
selection object, but the editor cannot take the focus and a range of the
removed editor is not in the document of the selection. -/
def remountedEnv : Env :=
  { scenarioEnv with
    focusable := false
    acceptsRange := fun _ => false }

/-! ## Lemmas on strings -/

theorem decimalAux_eq_digits (fuel : Nat) :
    ∀ (n : Nat) (acc : JSString), 0 < n → n < fuel →
      decimalAux fuel n acc = ((Nat.digits 10 n).reverse.map (fun d => 48 + d)) ++ acc := by
  induction fuel with
  | zero => intro n acc _ h; omega
  | succ fuel ih =>
    intro n acc hpos hlt
    have hd : Nat.digits 10 n = (n % 10) :: Nat.digits 10 (n / 10) :=
      Nat.digits_def' (by decide) hpos
    unfold decimalAux
    by_cases h0 : n / 10 = 0
    · simp [h0, hd]
    · have hq : 0 < n / 10 := Nat.pos_of_ne_zero h0
      have hlt2 : n / 10 < fuel := by omega
      simp only [h0, if_false]
      rw [ih (n / 10) _ hq hlt2, hd]
      simp

theorem decimal_zero : decimal 0 = [48] := by
  decide

theorem decimal_pos (n : Nat) (h : 0 < n) :
    decimal n = (Nat.digits 10 n).reverse.map (fun d => 48 + d) := by
  unfold decimal
  rw [decimalAux_eq_digits (n + 1) n [] h (by omega)]
  simp

theorem decimal_ne_nil (n : Nat) : decimal n ≠ [] := by
  rcases Nat.eq_zero_or_pos n with h | h
  · subst h; decide
  · rw [decimal_pos n h]
    have : Nat.digits 10 n ≠ [] := Nat.digits_ne_nil_iff_ne_zero.mpr (by omega)
    simpa using this

theorem decimal_mem_range (n : Nat) (c : Nat) (hc : c ∈ decimal n) : 48 ≤ c ∧ c ≤ 57 := by
  rcases Nat.eq_zero_or_pos n with h | h
  · subst h
    rw [decimal_zero] at hc
    have hc2 : c = 48 := by simpa using hc
    subst hc2
    decide
  · rw [decimal_pos n h] at hc
    simp only [List.mem_map, List.mem_reverse] at hc
    obtain ⟨d, hd, rfl⟩ := hc
    have hlt := Nat.digits_lt_base (by decide : 1 < 10) hd
    constructor
    · show 48 ≤ 48 + d
      omega
    · show 48 + d ≤ 57
      omega

theorem decimal_head_ne_zero (n : Nat) (h : 0 < n) : decimal n ≠ [48] := by
  rw [decimal_pos n h]
  intro hc
  have hne : Nat.digits 10 n ≠ [] := Nat.digits_ne_nil_iff_ne_zero.mpr (by omega)
  have hlast := Nat.getLast_digit_ne_zero 10 (by omega : n ≠ 0)
  have hrev : (Nat.digits 10 n).reverse = [0] := by
    have hm : ((Nat.digits 10 n).reverse.map (fun d => 48 + d)) = [0].map (fun d => 48 + d) := by
      simpa using hc
    exact List.map_injective_iff.mpr (fun a b hab => by simpa using hab) hm
  have hd : Nat.digits 10 n = [0] := by
    have := congrArg List.reverse hrev
    simpa using this
  simp [hd] at hlast

theorem decimal_injective (n m : Nat) (h : decimal n = decimal m) : n = m := by
  rcases Nat.eq_zero_or_pos n with hn | hn <;> rcases Nat.eq_zero_or_pos m with hm | hm
  · omega
  · subst hn
    rw [decimal_zero] at h
    exact absurd h.symm (decimal_head_ne_zero m hm)
  · subst hm
    rw [decimal_zero] at h
    exact absurd h (decimal_head_ne_zero n hn)
  · rw [decimal_pos n hn, decimal_pos m hm] at h
    have h1 : (Nat.digits 10 n).reverse = (Nat.digits 10 m).reverse :=
      List.map_injective_iff.mpr (fun a b hab => by simpa using hab) h
    have h2 : Nat.digits 10 n = Nat.digits 10 m := by
      have := congrArg List.reverse h1
      simpa using this
    exact Nat.digits_inj_iff.mp h2

theorem digitChar_toNat (d : Nat) (h : d < 10) : (Nat.digitChar d).toNat = 48 + d := by
  interval_cases d <;> rfl

theorem toDigitsCore_toNat (fuel : Nat) :
    ∀ (n : Nat) (ds : List Char),
      (Nat.toDigitsCore 10 fuel n ds).map Char.toNat =
        decimalAux fuel n (ds.map Char.toNat) := by
  induction fuel with
  | zero => intro n ds; rfl
  | succ fuel ih =>
    intro n ds
    have hd := digitChar_toNat (n % 10) (Nat.mod_lt n (by decide))
    unfold Nat.toDigitsCore decimalAux
    by_cases h0 : n / 10 = 0
    · simp [h0, hd]
    · simp only [h0, if_false]
      rw [ih]
      simp [hd]

/-- The function `decimal` renders a number as `Nat.repr` does. -/
theorem decimal_eq_repr (n : Nat) : decimal n = (Nat.repr n).toList.map Char.toNat := by
  unfold decimal Nat.repr Nat.toDigits
  rw [show (Nat.toDigitsCore 10 (n + 1) n []).asString.toList =
    Nat.toDigitsCore 10 (n + 1) n [] from rfl, toDigitsCore_toNat]
  rfl

theorem append_sep_inj (sep : CodeUnit) :
    ∀ (a a2 b b2 : JSString), sep ∉ a → sep ∉ a2 →
      a ++ [sep] ++ b = a2 ++ [sep] ++ b2 → a = a2 ∧ b = b2 := by
  intro a
  induction a with
  | nil =>
    intro a2 b b2 _ h2 h
    cases a2 with
    | nil => simpa using h
    | cons x xs =>
      simp only [List.nil_append, List.cons_append, List.singleton_append,
        List.cons.injEq] at h
      exact absurd (h.1 ▸ List.mem_cons_self _ _) h2
  | cons y ys ih =>
    intro a2 b b2 h1 h2 h
    cases a2 with
    | nil =>
      simp only [List.nil_append, List.cons_append, List.singleton_append,
        List.cons.injEq] at h
      exact absurd (h.1 ▸ List.mem_cons_self _ _) h1
    | cons x xs =>
      simp only [List.cons_append, List.cons.injEq] at h
      have hy : sep ∉ ys := fun hm => h1 (List.mem_cons_of_mem _ hm)
      have hx : sep ∉ xs := fun hm => h2 (List.mem_cons_of_mem _ hm)
      obtain ⟨e1, e2⟩ := ih xs b b2 hy hx (by simpa using h.2)
      exact ⟨by rw [h.1, e1], e2⟩

theorem bar_not_mem_decimal (n : Nat) : chBar ∉ decimal n := by
  intro h
  have := decimal_mem_range n chBar h
  simp [chBar] at this

theorem replaceTagsFrom_drop (k : Nat) :
    ∀ s : JSString, replaceTagsFrom k s = replaceTagsFrom 0 (s.drop k) := by
  induction k with
  | zero => intro s; simp
  | succ k ih =>
    intro s
    cases s with
    | nil => simp [replaceTagsFrom]
    | cons c cs => simpa [replaceTagsFrom] using ih cs

theorem tagMatchLen_pos (s : JSString) (n : Nat) (h : tagMatchLen s = some n) : 3 ≤ n := by
  cases s with
  | nil => simp [tagMatchLen] at h
  | cons c cs =>
    simp only [tagMatchLen] at h
    split at h
    · split at h
      · simp at h
      · split at h
        · simp at h
        · simp only [Option.some.injEq] at h
          omega
    · simp at h

/-- The scanner follows the semantics of a global replace: at a match the whole
match is dropped and scanning resumes behind it, elsewhere one code unit is
kept. -/
theorem replaceTags_cons (c : CodeUnit) (cs : JSString) :
    replaceTags (c :: cs) =
      match tagMatchLen (c :: cs) with
      | some n => replaceTags ((c :: cs).drop n)
      | none => c :: replaceTags cs := by
  unfold replaceTags
  rw [replaceTagsFrom]
  cases hm : tagMatchLen (c :: cs) with
  | none => rfl
  | some n =>
    have h3 := tagMatchLen_pos _ _ hm
    obtain ⟨m, rfl⟩ : ∃ m, n = m + 1 := ⟨n - 1, by omega⟩
    simp only [Nat.add_sub_cancel, List.drop_succ_cons]
    exact replaceTagsFrom_drop m cs

theorem drop_takeWhile_length (p : CodeUnit → Bool) :
    ∀ l : JSString, l.drop (l.takeWhile p).length = l.dropWhile p := by
  intro l
  induction l with
  | nil => rfl
  | cons x xs ih =>
    by_cases hp : p x = true
    · simp [List.takeWhile_cons, List.dropWhile_cons, hp, ih]
    · simp [List.takeWhile_cons, List.dropWhile_cons, hp]

/-- What `tagMatchLen` accepts is a match of `<[^>]+>`: a `<`, a non-empty
body free of `>`, and a `>`. -/
theorem tagMatchLen_some (s : JSString) (n : Nat) (h : tagMatchLen s = some n) :
    ∃ body rest, s = chLt :: (body ++ chGt :: rest) ∧ body ≠ [] ∧ chGt ∉ body ∧
      n = body.length + 2 := by
  cases s with
  | nil => simp [tagMatchLen] at h
  | cons c cs =>
    simp only [tagMatchLen] at h
    split at h
    next hc =>
      split at h
      · simp at h
      next hk =>
        split at h
        · simp at h
        next x xs hd =>
          simp only [Option.some.injEq] at h
          have hsplit := List.takeWhile_append_dropWhile notGt cs
          rw [drop_takeWhile_length] at hd
          have hx : x = chGt := by
            have hh := List.head_dropWhile_not notGt cs (by rw [hd]; simp)
            simp only [hd, List.head_cons] at hh
            simpa [notGt] using hh
          refine ⟨cs.takeWhile notGt, xs, ?_, ?_, ?_, ?_⟩
          · rw [hc, ← hx, ← hd, hsplit]
          · intro hnil
            exact hk (by rw [hnil]; rfl)
          · intro hmem
            have := List.mem_takeWhile_imp hmem
            simp [notGt] at this
          · omega
    · simp at h

theorem takeWhile_notGt_body :
    ∀ (body rest : JSString), chGt ∉ body →
      (body ++ chGt :: rest).takeWhile notGt = body := by
  intro body
  induction body with
  | nil => intro rest _; simp [List.takeWhile_cons, notGt]
  | cons x xs ih =>
    intro rest hb
    have hx : x ≠ chGt := fun e => hb (e ▸ List.mem_cons_self _ _)
    have hxs : chGt ∉ xs := fun hm => hb (List.mem_cons_of_mem _ hm)
    simp [List.takeWhile_cons, notGt, hx, ih rest hxs]

/-- Every match of `<[^>]+>` at the start of the string is accepted by
`tagMatchLen`. -/
theorem tagMatchLen_of_match (body rest : JSString) (hne : body ≠ []) (hb : chGt ∉ body) :
    tagMatchLen (chLt :: (body ++ chGt :: rest)) = some (body.length + 2) := by
  have htw := takeWhile_notGt_body body rest hb
  have hlen : body.length ≠ 0 := fun h => hne (List.length_eq_zero.mp h)
  simp only [tagMatchLen, htw, if_true, hlen, if_false]
  simp

theorem getData_setData_same (format data : JSString) :
    ∀ dt : DataTransfer, getData format (setData format data dt) = data := by
  intro dt
  induction dt with
  | nil => simp [setData, getData]
  | cons x xs ih =>
    obtain ⟨f, d⟩ := x
    by_cases h : f = format
    · simp [setData, getData, h]
    · simp [setData, getData, h, ih]

theorem getData_setData_other (format other data : JSString) (hne : other ≠ format) :
    ∀ dt : DataTransfer, getData other (setData format data dt) = getData other dt := by
  intro dt
  induction dt with
  | nil => simp [setData, getData, Ne.symm hne]
  | cons x xs ih =>
    obtain ⟨f, d⟩ := x
    by_cases h : f = format
    · have h2 : ¬ f = other := fun e => hne (e.symm.trans h)
      simp [setData, getData, h, Ne.symm hne]
    · by_cases h3 : f = other
      · subst h3
        simp [setData, getData, h]
      · simp [setData, getData, h, h3, ih]

theorem orEmpty_eq (s : JSString) : orEmpty s = s := by
  unfold orEmpty
  split
  · next h => exact h.symm
  · rfl

/-! ## The Context Locator -/

theorem frameAccepted_iff (f : Frame) :
    frameAccepted f = true ↔
      ∃ fd ed, frameDocument f = .ok (some fd) ∧ fd.marker = some ed ∧ 0 < f.width := by
  unfold frameAccepted
  constructor
  · intro h
    split at h
    · next fd hfd =>
      simp only [Bool.and_eq_true, decide_eq_true_eq, Option.isSome_iff_exists] at h
      obtain ⟨⟨ed, hed⟩, hw⟩ := h
      exact ⟨fd, ed, hfd, hed, hw⟩
    · simp at h
  · rintro ⟨fd, ed, hfd, hed, hw⟩
    simp [hfd, hed, hw]

theorem tryFrame_of_accepted (f : Frame) (fd : Document) (ed : Element)
    (hfd : frameDocument f = .ok (some fd)) (hed : fd.marker = some ed) (hw : 0 < f.width) :
    tryFrame f = .ok (some { doc := fd, win := f.contentWindow, editor := some ed }) ∧
    frameCtx f = some { doc := fd, win := f.contentWindow, editor := some ed } := by
  unfold tryFrame frameCtx
  simp [hfd, hed, hw]

theorem tryFrame_of_not_accepted (f : Frame) (h : frameAccepted f = false) :
    ∀ c, tryFrame f ≠ .ok (some c) := by
  intro c hc
  unfold tryFrame at hc
  split at hc
  · simp at hc
  · simp at hc
  · next fd hfd =>
    split at hc
    · simp at hc
    · next ed hed =>
      split at hc
      · next hw =>
        have : frameAccepted f = true := (frameAccepted_iff f).mpr ⟨fd, ed, hfd, hed, hw⟩
        rw [h] at this
        cases this
      · simp at hc

theorem scanFrames_cons_skip (cur : Ctx) (f : Frame) (rest : List Frame)
    (h : ∀ c, tryFrame f ≠ .ok (some c)) :
    scanFrames cur (f :: rest) = scanFrames cur rest := by
  rw [scanFrames]
  split
  · next c hc => exact absurd hc (h c)
  · rfl
  · rfl

theorem tryFrame_of_unreadable (f : Frame) (h : frameReadable f = false) :
    ∃ e, tryFrame f = .error e := by
  unfold frameReadable at h
  unfold tryFrame
  split at h
  · simp at h
  · next e he => exact ⟨e, by simp [he]⟩

theorem scanFrames_find (cur : Ctx) :
    ∀ frames : List Frame,
      scanFrames cur frames =
        .ok (match (frames.find? frameAccepted).bind frameCtx with
          | some c => c
          | none => cur) := by
  intro frames
  induction frames with
  | nil => rfl
  | cons f rest ih =>
    cases ha : frameAccepted f with
    | false =>
      rw [scanFrames_cons_skip cur f rest (tryFrame_of_not_accepted f ha), ih]
      simp [List.find?_cons, ha]
    | true =>
      obtain ⟨fd, ed, hfd, hed, hw⟩ := (frameAccepted_iff f).mp ha
      obtain ⟨h1, h2⟩ := tryFrame_of_accepted f fd ed hfd hed hw
      rw [scanFrames, h1]
      simp [List.find?_cons, ha, h2]

theorem scanFrames_filter_readable (cur : Ctx) :
    ∀ frames : List Frame,
      scanFrames cur (frames.filter frameReadable) = scanFrames cur frames := by
  intro frames
  induction frames with
  | nil => rfl
  | cons f rest ih =>
    cases hr : frameReadable f with
    | false =>
      obtain ⟨e, he⟩ := tryFrame_of_unreadable f hr
      rw [List.filter_cons_of_neg (by simp [hr]), ih]
      rw [scanFrames_cons_skip cur f rest (fun c hc => by rw [he] at hc; cases hc)]
    | true =>
      rw [List.filter_cons_of_pos (by simp [hr])]
      rw [scanFrames, scanFrames.eq_2 cur f rest, ih]

theorem scanFrames_append_skip (cur : Ctx) (rest : List Frame) :
    ∀ pre : List Frame, (∀ g ∈ pre, ∀ c, tryFrame g ≠ .ok (some c)) →
      scanFrames cur (pre ++ rest) = scanFrames cur rest := by
  intro pre
  induction pre with
  | nil => intro _; rfl
  | cons g gs ih =>
    intro h
    rw [List.cons_append, scanFrames_cons_skip cur g _ (h g (List.mem_cons_self _ _))]
    exact ih (fun x hx => h x (List.mem_cons_of_mem _ hx))

/-! ## The Insertion Engine: logs and frames -/

theorem prim_cases (env : Env) (p : Prim) (effect : World → World) (w : World) :
    prim env p effect w = (.error .domException, w.record (.call p)) ∨
    prim env p effect w = (.ok (), effect (w.record (.call p))) := by
  unfold prim
  split_ifs <;> simp

theorem QuietStep.refl (w : World) : QuietStep w w :=
  ⟨[], by simp, by simp, rfl⟩

theorem QuietStep.trans {u v w : World} (h1 : QuietStep u v) (h2 : QuietStep v w) :
    QuietStep u w := by
  obtain ⟨t1, hl1, hq1, he1⟩ := h1
  obtain ⟨t2, hl2, hq2, he2⟩ := h2
  exact ⟨t1 ++ t2, by rw [hl2, hl1, List.append_assoc], by simp [List.all_append, hq1, hq2],
    by rw [he2, he1]⟩

theorem QuietStep.record (w : World) (e : Event) (h : e.isQuiet = true) :
    QuietStep w (w.record e) :=
  ⟨[e], rfl, by simp [h], rfl⟩

theorem QuietStep.seq {α β : Type} {w : World} (r : Res α) (k : α → World → Res β)
    (h1 : QuietStep w r.2) (h2 : ∀ a v, QuietStep v (k a v).2) :
    QuietStep w (andThen r k).2 := by
  obtain ⟨x, v⟩ := r
  cases x with
  | error e => exact h1
  | ok a => exact QuietStep.trans h1 (h2 a v)

theorem prim_quiet (env : Env) (p : Prim) (effect : World → World) (w : World)
    (heff : ∀ v, (effect v).log = v.log ∧ (effect v).editor = v.editor) :
    QuietStep w (prim env p effect w).2 := by
  rcases prim_cases env p effect w with h | h <;> rw [h]
  · exact QuietStep.record w (.call p) rfl
  · refine QuietStep.trans (QuietStep.record w (.call p) rfl) ?_
    exact ⟨[], by simp [(heff _).1], by simp, (heff _).2⟩

theorem moveCaretToEnd_quiet (env : Env) (el : Element) (sel : Option Nat) (w : World) :
    QuietStep w (moveCaretToEnd env el sel w).2 := by
  unfold moveCaretToEnd
  refine QuietStep.seq _ _ (prim_quiet _ _ _ _ (fun _ => ⟨rfl, rfl⟩)) (fun _ w1 => ?_)
  refine QuietStep.seq _ _ (prim_quiet _ _ _ _ (fun _ => ⟨rfl, rfl⟩)) (fun _ w2 => ?_)
  refine QuietStep.seq _ _ (prim_quiet _ _ _ _ (fun _ => ⟨rfl, rfl⟩)) (fun _ w3 => ?_)
  cases sel with
  | none => exact QuietStep.refl _
  | some s =>
    refine QuietStep.seq _ _ (prim_quiet _ _ _ _ (fun _ => ⟨rfl, rfl⟩)) (fun _ w4 => ?_)
    exact prim_quiet _ _ _ _ (fun _ => ⟨rfl, rfl⟩)

theorem readSelection_quiet (env : Env) (ctx : Ctx) (w : World) :
    QuietStep w (readSelection env ctx w).2 := by
  unfold readSelection
  split
  · exact QuietStep.record w (.getSelection .globalWin) rfl
  · split
    · exact QuietStep.record w (.getSelection .ctxWin) rfl
    · exact QuietStep.trans (QuietStep.record w (.getSelection .ctxWin) rfl)
        (QuietStep.record _ (.getSelection .globalWin) rfl)

theorem caretTarget_quiet (env : Env) (ctx : Ctx) (sel : Option Nat) (w : World) :
    QuietStep w (caretTarget env ctx sel w).2 := by
  unfold caretTarget
  split
  · exact QuietStep.refl _
  · exact QuietStep.record w (.getSelection .ctxDoc) rfl

theorem focusEditor_frame (env : Env) (w : World) :
    (focusEditor env w).log = w.log ∧ (focusEditor env w).editor = w.editor := by
  unfold focusEditor
  split <;> exact ⟨rfl, rfl⟩

theorem synthesizeCaret_quiet (env : Env) (ctx : Ctx) (el : Element) (sel : Option Nat)
    (w : World) : QuietStep w (synthesizeCaret env ctx el sel w).2 := by
  unfold synthesizeCaret
  refine QuietStep.seq _ _ (caretTarget_quiet _ _ _ _) (fun target w3 => ?_)
  refine QuietStep.seq _ _ (moveCaretToEnd_quiet _ _ _ _) (fun _ w4 => ?_)
  exact QuietStep.record w4 (.timeout 20) rfl

theorem selectCaret_quiet (env : Env) (ctx : Ctx) (el : Element) (w : World) :
    QuietStep w (selectCaret env ctx el w).2 := by
  unfold selectCaret
  refine QuietStep.seq _ _ (readSelection_quiet _ _ _) (fun sel w2 => ?_)
  split
  · exact QuietStep.refl _
  · exact synthesizeCaret_quiet _ _ _ _ _

theorem caretStep_quiet (env : Env) (ctx : Ctx) (el : Element) (w : World) :
    QuietStep w (caretStep env ctx el w).2 := by
  unfold caretStep
  refine QuietStep.seq _ _ (prim_quiet _ _ _ _ (focusEditor_frame env)) (fun _ w1 => ?_)
  exact selectCaret_quiet _ _ _ _

theorem isQuiet_not_strategy (e : Event) (h : e.isQuiet = true) :
    e.isStrategy = false ∧ e.isDispatch = false := by
  cases e <;> simp_all [Event.isQuiet, Event.isStrategy, Event.isDispatch]

theorem quiet_filter (t : List Event) (h : t.all Event.isQuiet = true) :
    t.filter Event.isStrategy = [] ∧ t.filter Event.isDispatch = [] := by
  rw [List.all_eq_true] at h
  constructor
  · rw [List.filter_eq_nil_iff]
    intro e he
    simp [(isQuiet_not_strategy e (h e he)).1]
  · rw [List.filter_eq_nil_iff]
    intro e he
    simp [(isQuiet_not_strategy e (h e he)).2]

theorem QuietStep.toPaste (html : JSString) {w v : World} (h : QuietStep w v) :
    PasteStep html w v := by
  obtain ⟨t, hl, hq, _⟩ := h
  obtain ⟨h1, h2⟩ := quiet_filter t hq
  refine ⟨t, hl, h1, by simp [h2], ?_⟩
  intro p hp
  have : (Event.dispatchEvent p) ∈ t.filter Event.isDispatch := by
    simp [List.mem_filter, hp, Event.isDispatch]
  rw [h2] at this
  simp at this

theorem PasteStep.ofQuiet {html : JSString} {u v w : World} (h1 : QuietStep u v)
    (h2 : PasteStep html v w) : PasteStep html u w := by
  obtain ⟨t1, hl1, hq1, _⟩ := h1
  obtain ⟨t2, hl2, hs2, hd2, hp2⟩ := h2
  obtain ⟨f1, f2⟩ := quiet_filter t1 hq1
  refine ⟨t1 ++ t2, by rw [hl2, hl1, List.append_assoc], by simp [f1, hs2],
    by simpa [f2] using hd2, ?_⟩
  intro p hp
  rcases List.mem_append.mp hp with h | h
  · have : (Event.dispatchEvent p) ∈ t1.filter Event.isDispatch := by
      simp [List.mem_filter, h, Event.isDispatch]
    rw [f2] at this
    simp at this
  · exact hp2 p h

theorem PasteStep.seqQuiet {α β : Type} {html : JSString} {w : World} (r : Res α)
    (k : α → World → Res β) (h1 : QuietStep w r.2)
    (h2 : ∀ a v, PasteStep html v (k a v).2) :
    PasteStep html w (andThen r k).2 := by
  obtain ⟨x, v⟩ := r
  cases x with
  | error e => exact QuietStep.toPaste html h1
  | ok a => exact PasteStep.ofQuiet h1 (h2 a v)

theorem dispatchPaste_paste (env : Env) (ctx : Ctx) (html : JSString) (w : World) :
    PasteStep html w (dispatchPaste env ctx html w).2 := by
  unfold dispatchPaste
  split
  · exact QuietStep.toPaste html (QuietStep.refl w)
  · split
    · exact ⟨[.dispatchEvent (clipboardPayload html)], rfl, by simp [Event.isStrategy],
        by simp [Event.isDispatch], by simp⟩
    · exact ⟨[.dispatchEvent (clipboardPayload html), .timeout 30],
        by simp [World.record], by simp [Event.isStrategy], by simp [Event.isDispatch],
        by simp⟩

theorem tryPasteBody_paste (env : Env) (ctx : Ctx) (html : JSString) (w : World) :
    PasteStep html w (tryPasteBody env ctx html w).2 := by
  unfold tryPasteBody
  split
  · exact QuietStep.toPaste html (QuietStep.refl w)
  · split
    · exact QuietStep.toPaste html (QuietStep.refl w)
    · refine PasteStep.seqQuiet _ _ (prim_quiet _ _ _ _ (fun _ => ⟨rfl, rfl⟩)) (fun _ w1 => ?_)
      refine PasteStep.seqQuiet _ _ (prim_quiet _ _ _ _ (fun _ => ⟨rfl, rfl⟩)) (fun _ w2 => ?_)
      refine PasteStep.seqQuiet _ _ (prim_quiet _ _ _ _ (fun _ => ⟨rfl, rfl⟩)) (fun _ w3 => ?_)
      refine PasteStep.seqQuiet _ _ (prim_quiet _ _ _ _ (fun _ => ⟨rfl, rfl⟩)) (fun _ w4 => ?_)
      refine PasteStep.seqQuiet _ _ (prim_quiet _ _ _ _ (fun _ => ⟨rfl, rfl⟩)) (fun _ w5 => ?_)
      exact dispatchPaste_paste env ctx html w5

theorem tryPasteHTML_log (env : Env) (ctx : Ctx) (html : JSString) (w : World) :
    ∃ t, (tryPasteHTML env ctx html w).2.log =
        w.log ++ t ++ [.pasteReturned (tryPasteHTML env ctx html w).1] ∧
      t.filter Event.isStrategy = [] ∧ (t.filter Event.isDispatch).length ≤ 1 ∧
      ∀ p, Event.dispatchEvent p ∈ t → p = clipboardPayload html := by
  obtain ⟨t, hl, hs, hd, hp⟩ := tryPasteBody_paste env ctx html w
  refine ⟨t, ?_, hs, hd, hp⟩
  unfold tryPasteHTML
  rcases hb : tryPasteBody env ctx html w with ⟨x, v⟩
  rw [hb] at hl
  replace hl : v.log = w.log ++ t := hl
  cases x <;> simp [World.record, hl]

/-- Shape of the log of a call of `insertHTML` with an editor. -/
theorem insertHTML_log (env : Env) (ctx : Ctx) (el : Element) (html : JSString) (w : World)
    (hel : ctx.editor = some el) :
    ∃ t, (insertHTML env (some ctx) html w).2.log = w.log ++ t ∧
      (t.filter Event.isDispatch).length ≤ 1 ∧
      (∀ p, Event.dispatchEvent p ∈ t → p = clipboardPayload html) ∧
      ((t.filter Event.isStrategy = [] ∧
          ∃ e, (insertHTML env (some ctx) html w).1 = .error e) ∨
       (t.filter Event.isStrategy = [.pasteReturned true] ∧
          (insertHTML env (some ctx) html w).1 = .ok true) ∨
       (t.filter Event.isStrategy = [.pasteReturned false, .execCommand html false] ∧
          (insertHTML env (some ctx) html w).1 = .ok true) ∨
       (t.filter Event.isStrategy =
            [.pasteReturned false, .execCommand html true, .insertAdjacentHTML html false] ∧
          (insertHTML env (some ctx) html w).1 = .ok true) ∨
       (t.filter Event.isStrategy =
            [.pasteReturned false, .execCommand html true, .insertAdjacentHTML html true] ∧
          (insertHTML env (some ctx) html w).1 = .ok false)) := by
  obtain ⟨t1, hl1, hq1, _⟩ := caretStep_quiet env ctx el w
  obtain ⟨f1, g1⟩ := quiet_filter t1 hq1
  have hmem1 : ∀ p, Event.dispatchEvent p ∉ t1 := by
    intro p hp
    have : (Event.dispatchEvent p) ∈ t1.filter Event.isDispatch := by
      simp [List.mem_filter, hp, Event.isDispatch]
    rw [g1] at this
    simp at this
  simp only [insertHTML, hel]
  rcases hc : caretStep env ctx el w with ⟨x, w1⟩
  rw [hc] at hl1
  replace hl1 : w1.log = w.log ++ t1 := hl1
  cases x with
  | error e =>
    refine ⟨t1, by simpa [andThen] using hl1, by simp [g1], ?_, Or.inl ⟨f1, e, ?_⟩⟩
    · intro p hp
      exact absurd hp (hmem1 p)
    · simp [andThen]
  | ok u =>
    obtain ⟨t2, hl2, f2, g2, hp2⟩ := tryPasteHTML_log env ctx html w1
    simp only [andThen]
    rcases hp : tryPasteHTML env ctx html w1 with ⟨ok, w2⟩
    rw [hp] at hl2
    simp only [] at hl2
    have hmem12 : ∀ p, Event.dispatchEvent p ∈ t1 ++ t2 → p = clipboardPayload html := by
      intro p hm
      rcases List.mem_append.mp hm with h | h
      · exact absurd h (hmem1 p)
      · exact hp2 p h
    cases ok with
    | true =>
      refine ⟨t1 ++ t2 ++ [.pasteReturned true], by simp [hl2, hl1], ?_, ?_, ?_⟩
      · simpa [g1, Event.isDispatch, List.filter_append] using g2
      · intro p hm
        simp only [List.mem_append, List.mem_singleton] at hm
        rcases hm with h | h
        · exact hmem12 p (List.mem_append.mpr h)
        · cases h
      · exact Or.inr (Or.inl ⟨by simp [f1, f2, Event.isStrategy, List.filter_append], rfl⟩)
    | false =>
      simp only [execInsertHTML]
      cases hx : env.execCommand w2 html with
      | ok ed =>
        refine ⟨t1 ++ t2 ++ [.pasteReturned false, .execCommand html false],
          by simp [World.record, hl2, hl1], ?_, ?_, ?_⟩
        · simpa [g1, Event.isDispatch, List.filter_append] using g2
        · intro p hm
          simp only [List.mem_append, List.mem_cons, List.mem_singleton] at hm
          rcases hm with h | h
          · exact hmem12 p (List.mem_append.mpr h)
          · rcases h with h | h | h <;> cases h
        · exact Or.inr (Or.inr (Or.inl
            ⟨by simp [f1, f2, Event.isStrategy, List.filter_append], rfl⟩))
      | error e =>
        simp only [insertAdjacentHTML]
        by_cases hr : env.insertAdjacentRaises (w2.record (.execCommand html true)) html = true
        · rw [if_pos hr]
          refine ⟨t1 ++ t2 ++ [.pasteReturned false, .execCommand html true,
              .insertAdjacentHTML html true], by simp [World.record, hl2, hl1], ?_, ?_, ?_⟩
          · simpa [g1, Event.isDispatch, List.filter_append] using g2
          · intro p hm
            simp only [List.mem_append, List.mem_cons, List.mem_singleton] at hm
            rcases hm with h | h
            · exact hmem12 p (List.mem_append.mpr h)
            · rcases h with h | h | h | h <;> cases h
          · exact Or.inr (Or.inr (Or.inr (Or.inr
              ⟨by simp [f1, f2, Event.isStrategy, List.filter_append], rfl⟩)))
        · rw [if_neg hr]
          refine ⟨t1 ++ t2 ++ [.pasteReturned false, .execCommand html true,
              .insertAdjacentHTML html false], by simp [World.record, hl2, hl1], ?_, ?_, ?_⟩
          · simpa [g1, Event.isDispatch, List.filter_append] using g2
          · intro p hm
            simp only [List.mem_append, List.mem_cons, List.mem_singleton] at hm
            rcases hm with h | h
            · exact hmem12 p (List.mem_append.mpr h)
            · rcases h with h | h | h | h <;> cases h
          · exact Or.inr (Or.inr (Or.inr (Or.inl
              ⟨by simp [f1, f2, Event.isStrategy, List.filter_append], rfl⟩)))

theorem newEvents_append (l t : List Event) : newEvents l (l ++ t) = t := by
  simp [newEvents]

theorem caretStep_error (env : Env) (ctx : Ctx) (el : Element) (html : JSString) (w : World)
    (e : Err) (hel : ctx.editor = some el) (hc : (caretStep env ctx el w).1 = .error e) :
    (insertHTML env (some ctx) html w).1 = .error e := by
  simp only [insertHTML, hel]
  rcases hcs : caretStep env ctx el w with ⟨x, w1⟩
  rw [hcs] at hc
  cases x with
  | error e2 =>
    have : e2 = e := by simpa using hc
    simp [andThen, this]
  | ok u => simp at hc

/-- Once caret establishment has completed, `insertHTML` returns a boolean:
every later error is caught. -/
theorem insertHTML_returns_of_caret (env : Env) (ctx : Ctx) (el : Element) (html : JSString)
    (w : World) (hel : ctx.editor = some el) (hc : (caretStep env ctx el w).1 = .ok ()) :
    ∃ b, (insertHTML env (some ctx) html w).1 = .ok b := by
  simp only [insertHTML, hel]
  rcases hcs : caretStep env ctx el w with ⟨x, w1⟩
  rw [hcs] at hc
  cases x with
  | error e2 => simp at hc
  | ok u =>
    simp only [andThen]
    rcases hp : tryPasteHTML env ctx html w1 with ⟨ok, w2⟩
    cases ok with
    | true => exact ⟨true, rfl⟩
    | false =>
      simp only []
      rcases hx : execInsertHTML env html w2 with ⟨y, w3⟩
      cases y with
      | ok u2 => exact ⟨true, rfl⟩
      | error e3 =>
        simp only []
        rcases hy : insertAdjacentHTML env html w3 with ⟨z, w4⟩
        cases z with
        | ok u3 => exact ⟨true, rfl⟩
        | error e4 => exact ⟨false, rfl⟩

theorem tryPasteHTML_unsupported (env : Env) (ctx : Ctx) (html : JSString) (w : World)
    (h : pasteSupported env ctx = false) :
    tryPasteHTML env ctx html w = (false, w.record (.pasteReturned false)) := by
  unfold pasteSupported at h
  unfold tryPasteHTML tryPasteBody
  split at h
  · next hw => simp [hw]
  · next win hw =>
    have hcond : (!(env.hasDataTransfer win || env.hasDataTransfer env.window) ||
        !(env.hasClipboardEvent win || env.hasClipboardEvent env.window)) = true := by
      cases h1 : (env.hasDataTransfer win || env.hasDataTransfer env.window) <;>
        cases h2 : (env.hasClipboardEvent win || env.hasClipboardEvent env.window) <;>
        simp_all
    simp only [hw, hcond, if_true]

theorem strategy_shape_order (html : JSString) (st : List Event)
    (h : st = [] ∨ st = [.pasteReturned true] ∨
      st = [.pasteReturned false, .execCommand html false] ∨
      st = [.pasteReturned false, .execCommand html true, .insertAdjacentHTML html false] ∨
      st = [.pasteReturned false, .execCommand html true, .insertAdjacentHTML html true]) :
    (st.filter Event.isPasteReturn).length ≤ 1 ∧
    (st.filter Event.isExecCommand).length ≤ 1 ∧
    (st.filter Event.isInsertAdjacent).length ≤ 1 ∧
    (∀ i e, st[i]? = some e → e.isExecCommand = true →
      i = 1 ∧ st[0]? = some (.pasteReturned false)) ∧
    (∀ i e, st[i]? = some e → e.isInsertAdjacent = true →
      i = 2 ∧ st[0]? = some (.pasteReturned false) ∧
        st[1]? = some (.execCommand html true)) := by
  rcases h with h | h | h | h | h <;> subst h <;>
    refine ⟨by simp [Event.isPasteReturn], by simp [Event.isExecCommand],
      by simp [Event.isInsertAdjacent], ?_, ?_⟩ <;>
    intro i e hi he <;>
    rcases i with _ | _ | _ | i <;>
    simp at hi <;>
    (try subst hi) <;>
    simp_all [Event.isExecCommand, Event.isInsertAdjacent]

/-! ## Caret establishment -/

theorem SameState.chain {u v w : World} (h1 : SameState u v) (h2 : SameState v w) :
    SameState u w :=
  ⟨h1.1.trans h2.1, h1.2.1.trans h2.2.1, h1.2.2.trans h2.2.2⟩

theorem record_same (w : World) (e : Event) : SameState (w.record e) w :=
  ⟨rfl, rfl, rfl⟩

theorem readSelection_value (env : Env) (ctx : Ctx) (w v : World) :
    (readSelection env ctx w).1 = (readSelection env ctx v).1 := by
  unfold readSelection
  split
  · rfl
  · split <;> rfl

theorem readSelection_same (env : Env) (ctx : Ctx) (w : World) :
    SameState (readSelection env ctx w).2 w := by
  unfold readSelection
  split
  · exact ⟨rfl, rfl, rfl⟩
  · split <;> exact ⟨rfl, rfl, rfl⟩

theorem caretTarget_value (env : Env) (ctx : Ctx) (sel : Option Nat) (w v : World) :
    (caretTarget env ctx sel w).1 = (caretTarget env ctx sel v).1 := by
  unfold caretTarget
  split <;> rfl

theorem caretTarget_same (env : Env) (ctx : Ctx) (sel : Option Nat) (w : World) :
    SameState (caretTarget env ctx sel w).2 w := by
  unfold caretTarget
  split <;> exact ⟨rfl, rfl, rfl⟩

theorem caretTarget_of_some (env : Env) (ctx : Ctx) (s : Nat) (w : World) :
    (caretTarget env ctx (some s) w).1 = .ok (some s) := rfl

theorem hasCaret_congr (env : Env) (el : Element) (w v : World) (sel : Option Nat)
    (h : w.selections = v.selections) : hasCaret env el w sel = hasCaret env el v sel := by
  unfold hasCaret
  rw [h]

theorem hasCaret_of_empty (env : Env) (el : Element) (w : World) (s : Nat)
    (h : w.selections s = Selection.empty) : hasCaret env el w (some s) = false := by
  simp [hasCaret, h, Selection.empty]

theorem addRange_removeAllRanges (env : Env) (el : Element) (editor : EditorState) (s : Nat)
    (sel : Selection) :
    (sel.removeAllRanges).addRange (caretRange el editor) (env.acceptsRange s) =
      installedCaret env el editor s := by
  unfold installedCaret
  cases env.acceptsRange s <;>
    simp [Selection.addRange, Selection.removeAllRanges, Selection.empty]

theorem moveCaretToEnd_value (env : Env) (el : Element) (target : Option Nat) (w v : World) :
    (moveCaretToEnd env el target w).1 = (moveCaretToEnd env el target v).1 := by
  unfold moveCaretToEnd prim andThen
  cases target <;> split_ifs <;> rfl

theorem moveCaretToEnd_frame (env : Env) (el : Element) (target : Option Nat) (w : World) :
    (moveCaretToEnd env el target w).2.editor = w.editor ∧
    (moveCaretToEnd env el target w).2.focused = w.focused := by
  unfold moveCaretToEnd prim andThen
  cases target <;> split_ifs <;> exact ⟨rfl, rfl⟩

theorem moveCaretToEnd_none (env : Env) (el : Element) (w : World) :
    (moveCaretToEnd env el none w).1 ≠ .ok () ∧
    (moveCaretToEnd env el none w).2.selections = w.selections := by
  unfold moveCaretToEnd prim andThen
  split_ifs <;> simp [World.record]

theorem moveCaretToEnd_some (env : Env) (el : Element) (s : Nat) (w : World) :
    (moveCaretToEnd env el (some s) w).2.selections =
      caretSelections env el w.editor s w.selections ∧
    ((moveCaretToEnd env el (some s) w).1 = .ok () ↔
      (env.raises .createRange || env.raises .selectNodeContents || env.raises .collapse ||
        env.raises .removeAllRanges || env.raises .addRange) = false) := by
  unfold moveCaretToEnd prim andThen caretSelections
  cases h1 : env.raises .createRange <;> cases h2 : env.raises .selectNodeContents <;>
    cases h3 : env.raises .collapse <;> cases h4 : env.raises .removeAllRanges <;>
    cases h5 : env.raises .addRange <;>
    simp [World.record, World.setSelection, Selection.removeAllRanges, Selection.empty,
      installedCaret, Selection.addRange]

theorem caretSelections_idem (env : Env) (el : Element) (editor : EditorState) (s : Nat)
    (sels : Nat → Selection) :
    caretSelections env el editor s (caretSelections env el editor s sels) =
      caretSelections env el editor s sels := by
  unfold caretSelections
  split_ifs <;> simp [Function.update_idem]

theorem caretSelections_of_ok (env : Env) (el : Element) (editor : EditorState) (s : Nat)
    (sels : Nat → Selection)
    (h : (env.raises .createRange || env.raises .selectNodeContents || env.raises .collapse ||
        env.raises .removeAllRanges || env.raises .addRange) = false) :
    caretSelections env el editor s sels =
      Function.update sels s (installedCaret env el editor s) := by
  simp only [Bool.or_eq_false_iff] at h
  obtain ⟨⟨⟨⟨h1, h2⟩, h3⟩, h4⟩, h5⟩ := h
  simp [caretSelections, h1, h2, h3, h4, h5]

/-- After a `moveCaretToEnd` that did not complete, the selection object it
worked on holds no caret, unless nothing was changed at all. -/
theorem caretSelections_of_raise (env : Env) (el : Element) (editor : EditorState) (s : Nat)
    (sels : Nat → Selection)
    (h : (env.raises .createRange || env.raises .selectNodeContents || env.raises .collapse ||
        env.raises .removeAllRanges || env.raises .addRange) = true) :
    caretSelections env el editor s sels = sels ∨
      caretSelections env el editor s sels s = Selection.empty := by
  unfold caretSelections
  split_ifs with ha hb
  · exact Or.inl rfl
  · exact Or.inr (by simp)
  · exfalso
    simp only [Bool.or_eq_true] at h ha
    simp only [Bool.not_eq_true] at hb
    rcases h with h | h
    · exact ha h
    · rw [hb] at h
      cases h

theorem synthesizeCaret_frame (env : Env) (ctx : Ctx) (el : Element) (sel : Option Nat)
    (w : World) :
    (synthesizeCaret env ctx el sel w).2.editor = w.editor ∧
    (synthesizeCaret env ctx el sel w).2.focused = w.focused := by
  have hs := caretTarget_same env ctx sel w
  unfold synthesizeCaret
  generalize caretTarget env ctx sel w = r at hs ⊢
  obtain ⟨x, w3⟩ := r
  replace hs : SameState w3 w := hs
  cases x with
  | error e => exact ⟨hs.2.1, hs.2.2⟩
  | ok target =>
    have hm := moveCaretToEnd_frame env el target w3
    simp only [andThen]
    generalize moveCaretToEnd env el target w3 = r2 at hm ⊢
    obtain ⟨y, w4⟩ := r2
    replace hm : w4.editor = w3.editor ∧ w4.focused = w3.focused := hm
    cases y with
    | error e => exact ⟨hm.1.trans hs.2.1, hm.2.trans hs.2.2⟩
    | ok u => exact ⟨hm.1.trans hs.2.1, hm.2.trans hs.2.2⟩

theorem synthesizeCaret_value (env : Env) (ctx : Ctx) (el : Element) (sel : Option Nat)
    (w v : World) :
    (synthesizeCaret env ctx el sel w).1 = (synthesizeCaret env ctx el sel v).1 := by
  have ht := caretTarget_value env ctx sel w v
  unfold synthesizeCaret
  generalize caretTarget env ctx sel w = r at ht ⊢
  generalize caretTarget env ctx sel v = r2 at ht ⊢
  obtain ⟨x, w3⟩ := r
  obtain ⟨x2, v3⟩ := r2
  replace ht : x = x2 := ht
  subst ht
  cases x with
  | error e => rfl
  | ok target =>
    have hm := moveCaretToEnd_value env el target w3 v3
    simp only [andThen]
    generalize moveCaretToEnd env el target w3 = q at hm ⊢
    generalize moveCaretToEnd env el target v3 = q2 at hm ⊢
    obtain ⟨y, w4⟩ := q
    obtain ⟨y2, v4⟩ := q2
    replace hm : y = y2 := hm
    subst hm
    cases y <;> rfl

theorem synthesizeCaret_target (env : Env) (ctx : Ctx) (el : Element) (sel : Option Nat)
    (w : World) (s : Nat) (h : (caretTarget env ctx sel w).1 = .ok (some s)) :
    (synthesizeCaret env ctx el sel w).2.selections =
      caretSelections env el w.editor s w.selections ∧
    ((synthesizeCaret env ctx el sel w).1 = .ok () ↔
      (env.raises .createRange || env.raises .selectNodeContents || env.raises .collapse ||
        env.raises .removeAllRanges || env.raises .addRange) = false) := by
  have hs := caretTarget_same env ctx sel w
  unfold synthesizeCaret
  generalize caretTarget env ctx sel w = r at hs h ⊢
  obtain ⟨x, w3⟩ := r
  replace hs : SameState w3 w := hs
  replace h : x = .ok (some s) := h
  subst h
  obtain ⟨hm1, hm2⟩ := moveCaretToEnd_some env el s w3
  simp only [andThen]
  generalize moveCaretToEnd env el (some s) w3 = q at hm1 hm2 ⊢
  obtain ⟨y, w4⟩ := q
  replace hm1 : w4.selections = caretSelections env el w3.editor s w3.selections := hm1
  replace hm2 : y = .ok () ↔ _ := hm2
  rw [hs.1, hs.2.1] at hm1
  cases y with
  | error e =>
    refine ⟨hm1, ?_⟩
    rw [← hm2]
  | ok u =>
    refine ⟨hm1, ?_⟩
    rw [← hm2]

theorem synthesizeCaret_no_target (env : Env) (ctx : Ctx) (el : Element) (sel : Option Nat)
    (w : World) (h : ∀ s, (caretTarget env ctx sel w).1 ≠ .ok (some s)) :
    (synthesizeCaret env ctx el sel w).2.selections = w.selections ∧
    (synthesizeCaret env ctx el sel w).1 ≠ .ok () := by
  have hs := caretTarget_same env ctx sel w
  unfold synthesizeCaret
  generalize caretTarget env ctx sel w = r at hs h ⊢
  obtain ⟨x, w3⟩ := r
  replace hs : SameState w3 w := hs
  cases x with
  | error e => exact ⟨hs.1, by simp [andThen]⟩
  | ok target =>
    cases target with
    | some s => exact absurd rfl (h s)
    | none =>
      obtain ⟨hm1, hm2⟩ := moveCaretToEnd_none env el w3
      simp only [andThen]
      generalize moveCaretToEnd env el none w3 = q at hm1 hm2 ⊢
      obtain ⟨y, w4⟩ := q
      replace hm2 : w4.selections = w3.selections := hm2
      cases y with
      | error e => exact ⟨hm2.trans hs.1, by simp⟩
      | ok u => exact absurd rfl hm1

/-- A second synthesis right after a first one changes nothing, and the
selection can only have become a caret inside the editor if the first
synthesis completed. -/
theorem synthesizeCaret_again (env : Env) (ctx : Ctx) (el : Element) (sel : Option Nat)
    (w v : World) (hno : hasCaret env el w sel = false)
    (hv : v.selections = (synthesizeCaret env ctx el sel w).2.selections)
    (hve : v.editor = w.editor) :
    (hasCaret env el v sel = true → (synthesizeCaret env ctx el sel w).1 = .ok ()) ∧
    (synthesizeCaret env ctx el sel v).1 = (synthesizeCaret env ctx el sel w).1 ∧
    (synthesizeCaret env ctx el sel v).2.selections = v.selections := by
  refine ⟨?_, synthesizeCaret_value env ctx el sel v w, ?_⟩
  · intro hyes
    cases ht : (caretTarget env ctx sel w).1 with
    | error e =>
      obtain ⟨h1, _⟩ := synthesizeCaret_no_target env ctx el sel w (by simp [ht])
      rw [hasCaret_congr env el v w sel (hv.trans h1), hno] at hyes
      cases hyes
    | ok target =>
      cases target with
      | none =>
        obtain ⟨h1, _⟩ := synthesizeCaret_no_target env ctx el sel w (by simp [ht])
        rw [hasCaret_congr env el v w sel (hv.trans h1), hno] at hyes
        cases hyes
      | some s =>
        obtain ⟨h1, h2⟩ := synthesizeCaret_target env ctx el sel w s ht
        rw [h2]
        by_contra hr
        simp only [Bool.not_eq_false] at hr
        rcases caretSelections_of_raise env el w.editor s w.selections hr with hc | hc
        · rw [hasCaret_congr env el v w sel (hv.trans (h1.trans hc)), hno] at hyes
          cases hyes
        · cases sel with
          | none => simp [hasCaret] at hyes
          | some s2 =>
            have hs2 : s2 = s := by
              have := caretTarget_of_some env ctx s2 w
              rw [ht] at this
              simpa using this.symm
            subst hs2
            have : v.selections s2 = Selection.empty := by rw [hv, h1, hc]
            rw [hasCaret_of_empty env el v s2 this] at hyes
            cases hyes
  · cases ht : (caretTarget env ctx sel w).1 with
    | error e =>
      have ht2 : (caretTarget env ctx sel v).1 = .error e := by
        rw [caretTarget_value env ctx sel v w, ht]
      exact (synthesizeCaret_no_target env ctx el sel v (by simp [ht2])).1
    | ok target =>
      have ht2 : (caretTarget env ctx sel v).1 = .ok target := by
        rw [caretTarget_value env ctx sel v w, ht]
      cases target with
      | none => exact (synthesizeCaret_no_target env ctx el sel v (by simp [ht2])).1
      | some s =>
        rw [(synthesizeCaret_target env ctx el sel v s ht2).1, hve, hv,
          (synthesizeCaret_target env ctx el sel w s ht).1, caretSelections_idem]

theorem selectCaret_of_error (env : Env) (ctx : Ctx) (el : Element) (w : World) (e : Err)
    (h : (readSelection env ctx w).1 = .error e) :
    selectCaret env ctx el w = (.error e, (readSelection env ctx w).2) := by
  unfold selectCaret
  generalize readSelection env ctx w = r at h ⊢
  obtain ⟨x, w2⟩ := r
  replace h : x = .error e := h
  subst h
  rfl

theorem selectCaret_of_caret (env : Env) (ctx : Ctx) (el : Element) (w : World)
    (sel : Option Nat) (h : (readSelection env ctx w).1 = .ok sel)
    (hc : hasCaret env el w sel = true) :
    selectCaret env ctx el w = (.ok (), (readSelection env ctx w).2) := by
  have hs := readSelection_same env ctx w
  unfold selectCaret
  generalize readSelection env ctx w = r at h hs ⊢
  obtain ⟨x, w2⟩ := r
  replace h : x = .ok sel := h
  replace hs : SameState w2 w := hs
  subst h
  have : hasCaret env el w2 sel = true := by rw [hasCaret_congr env el w2 w sel hs.1, hc]
  simp [andThen, this]

theorem selectCaret_of_no_caret (env : Env) (ctx : Ctx) (el : Element) (w : World)
    (sel : Option Nat) (h : (readSelection env ctx w).1 = .ok sel)
    (hc : hasCaret env el w sel = false) :
    selectCaret env ctx el w = synthesizeCaret env ctx el sel (readSelection env ctx w).2 := by
  have hs := readSelection_same env ctx w
  unfold selectCaret
  generalize readSelection env ctx w = r at h hs ⊢
  obtain ⟨x, w2⟩ := r
  replace h : x = .ok sel := h
  replace hs : SameState w2 w := hs
  subst h
  have : hasCaret env el w2 sel = false := by rw [hasCaret_congr env el w2 w sel hs.1, hc]
  simp [andThen, this]

theorem selectCaret_frame (env : Env) (ctx : Ctx) (el : Element) (w : World) :
    (selectCaret env ctx el w).2.editor = w.editor ∧
    (selectCaret env ctx el w).2.focused = w.focused := by
  have hs := readSelection_same env ctx w
  cases hr : (readSelection env ctx w).1 with
  | error e =>
    rw [selectCaret_of_error env ctx el w e hr]
    exact ⟨hs.2.1, hs.2.2⟩
  | ok sel =>
    cases hc : hasCaret env el w sel with
    | true =>
      rw [selectCaret_of_caret env ctx el w sel hr hc]
      exact ⟨hs.2.1, hs.2.2⟩
    | false =>
      rw [selectCaret_of_no_caret env ctx el w sel hr hc]
      obtain ⟨h1, h2⟩ := synthesizeCaret_frame env ctx el sel (readSelection env ctx w).2
      exact ⟨h1.trans hs.2.1, h2.trans hs.2.2⟩

/-- Lines 124 to 131 run again on the state they left give the same outcome
and leave that state as it is. -/
theorem selectCaret_again (env : Env) (ctx : Ctx) (el : Element) (w v : World)
    (hv : SameState v (selectCaret env ctx el w).2) :
    (selectCaret env ctx el v).1 = (selectCaret env ctx el w).1 ∧
    SameState (selectCaret env ctx el v).2 v := by
  have hsw := readSelection_same env ctx w
  have hsv := readSelection_same env ctx v
  have hval := readSelection_value env ctx v w
  cases hr : (readSelection env ctx w).1 with
  | error e =>
    rw [hr] at hval
    rw [selectCaret_of_error env ctx el w e hr, selectCaret_of_error env ctx el v e hval]
    exact ⟨rfl, hsv⟩
  | ok sel =>
    rw [hr] at hval
    cases hc : hasCaret env el w sel with
    | true =>
      rw [selectCaret_of_caret env ctx el w sel hr hc] at hv ⊢
      have hcv : hasCaret env el v sel = true := by
        rw [hasCaret_congr env el v w sel (hv.1.trans hsw.1), hc]
      rw [selectCaret_of_caret env ctx el v sel hval hcv]
      exact ⟨rfl, hsv⟩
    | false =>
      rw [selectCaret_of_no_caret env ctx el w sel hr hc] at hv ⊢
      have hno : hasCaret env el (readSelection env ctx w).2 sel = false := by
        rw [hasCaret_congr env el _ w sel hsw.1, hc]
      obtain ⟨hfe, hff⟩ := synthesizeCaret_frame env ctx el sel (readSelection env ctx w).2
      cases hcv : hasCaret env el v sel with
      | true =>
        rw [selectCaret_of_caret env ctx el v sel hval hcv]
        obtain ⟨h1, _, _⟩ := synthesizeCaret_again env ctx el sel (readSelection env ctx w).2 v
          hno hv.1 (hv.2.1.trans hfe)
        exact ⟨(h1 hcv).symm, hsv⟩
      | false =>
        rw [selectCaret_of_no_caret env ctx el v sel hval hcv]
        obtain ⟨_, h2, h3⟩ := synthesizeCaret_again env ctx el sel (readSelection env ctx w).2
          (readSelection env ctx v).2 hno (hsv.1.trans hv.1)
          (hsv.2.1.trans (hv.2.1.trans hfe))
        obtain ⟨g1, g2⟩ := synthesizeCaret_frame env ctx el sel (readSelection env ctx v).2
        exact ⟨h2, h3.trans hsv.1, g1.trans hsv.2.1, g2.trans hsv.2.2⟩

theorem focusEditor_selections (env : Env) (w : World) (e : Event) :
    (focusEditor env (w.record e)).selections = (focusEditor env w).selections ∧
    (focusEditor env (w.record e)).focused = (focusEditor env w).focused := by
  unfold focusEditor World.record
  split <;> exact ⟨rfl, rfl⟩

theorem focusEditor_focused (env : Env) (w : World) (h : env.focusable = true) :
    (focusEditor env w).focused = true := by
  unfold focusEditor
  cases hf : w.focused <;> simp [h, hf]

theorem focusEditor_again (env : Env) (w : World)
    (h : env.focusable = true → w.focused = true) : focusEditor env w = w := by
  unfold focusEditor
  cases hf : env.focusable with
  | false => simp
  | true => simp [h hf]

theorem caretStep_of_focus_error (env : Env) (ctx : Ctx) (el : Element) (w : World)
    (h : env.raises .focus = true) :
    caretStep env ctx el w = (.error .domException, w.record (.call .focus)) := by
  simp [caretStep, prim, h, andThen]

theorem caretStep_of_focus_ok (env : Env) (ctx : Ctx) (el : Element) (w : World)
    (h : env.raises .focus = false) :
    caretStep env ctx el w =
      selectCaret env ctx el (focusEditor env (w.record (.call .focus))) := by
  simp [caretStep, prim, h, andThen]

/-- The caret-establishment step run again on the state it left gives the same
outcome and leaves that state as it is. -/
theorem caretStep_again (env : Env) (ctx : Ctx) (el : Element) (w : World) :
    (caretStep env ctx el (caretStep env ctx el w).2).1 = (caretStep env ctx el w).1 ∧
    SameState (caretStep env ctx el (caretStep env ctx el w).2).2 (caretStep env ctx el w).2 := by
  cases hf : env.raises .focus with
  | true =>
    rw [caretStep_of_focus_error env ctx el w hf, caretStep_of_focus_error env ctx el _ hf]
    exact ⟨rfl, rfl, rfl, rfl⟩
  | false =>
    rw [caretStep_of_focus_ok env ctx el w hf]
    generalize hwa : focusEditor env (w.record (.call .focus)) = wA
    have hfoc : env.focusable = true → wA.focused = true := by
      intro h
      rw [← hwa]
      exact focusEditor_focused env _ h
    obtain ⟨_, hff⟩ := selectCaret_frame env ctx el wA
    generalize hw1 : (selectCaret env ctx el wA).2 = w1 at hff
    rw [caretStep_of_focus_ok env ctx el w1 hf]
    have hsame : SameState (focusEditor env (w1.record (.call .focus))) w1 := by
      rw [focusEditor_again env (w1.record (.call .focus)) (fun h => by
        show w1.focused = true
        rw [hff]
        exact hfoc h)]
      exact record_same w1 _
    have := selectCaret_again env ctx el wA (focusEditor env (w1.record (.call .focus)))
      (by rw [hw1]; exact hsame)
    exact ⟨by rw [this.1], SameState.chain this.2 hsame⟩

/-- A completed run that had to synthesize a caret leaves, in the selection
object it worked on, the caret range when the selection accepts it and no
range otherwise. -/
theorem caretStep_synthesized (env : Env) (ctx : Ctx) (el : Element) (w : World)
    (sel : Option Nat) (h1 : (caretStep env ctx el w).1 = .ok ())
    (hsel : (readSelection env ctx w).1 = .ok sel)
    (hno : hasCaret env el (focusEditor env w) sel = false) :
    ∃ s, (caretTarget env ctx sel w).1 = .ok (some s) ∧
      (caretStep env ctx el w).2.selections s = installedCaret env el w.editor s := by
  cases hf : env.raises .focus with
  | true =>
    rw [caretStep_of_focus_error env ctx el w hf] at h1
    cases h1
  | false =>
    rw [caretStep_of_focus_ok env ctx el w hf] at h1 ⊢
    generalize hwa : focusEditor env (w.record (.call .focus)) = wA at h1 ⊢
    have hAs : wA.selections = (focusEditor env w).selections := by
      rw [← hwa]
      exact (focusEditor_selections env w _).1
    have hAe : wA.editor = w.editor := by
      rw [← hwa]
      exact (focusEditor_frame env _).2
    have hselA : (readSelection env ctx wA).1 = .ok sel := by
      rw [readSelection_value env ctx wA w, hsel]
    have hnoA : hasCaret env el wA sel = false := by
      rw [hasCaret_congr env el wA (focusEditor env w) sel hAs, hno]
    rw [selectCaret_of_no_caret env ctx el wA sel hselA hnoA] at h1 ⊢
    have hsr := readSelection_same env ctx wA
    generalize (readSelection env ctx wA).2 = wB at h1 hsr ⊢
    cases ht : (caretTarget env ctx sel wB).1 with
    | error e =>
      exact absurd h1 (synthesizeCaret_no_target env ctx el sel wB (by simp [ht])).2
    | ok target =>
      cases target with
      | none =>
        exact absurd h1 (synthesizeCaret_no_target env ctx el sel wB (by simp [ht])).2
      | some s =>
        obtain ⟨g1, g2⟩ := synthesizeCaret_target env ctx el sel wB s ht
        refine ⟨s, by rw [caretTarget_value env ctx sel w wB, ht], ?_⟩
        rw [g1, caretSelections_of_ok env el wB.editor s wB.selections (g2.mp h1),
          Function.update_same, hsr.2.1, hAe]

/-- The condition under which `insertHTML` synthesizes a caret: the selection
read is null, or it has no range, or its anchor node is outside the editor. -/
theorem hasCaret_eq_false_iff (env : Env) (el : Element) (w : World) (sel : Option Nat) :
    hasCaret env el w sel = false ↔
      (sel = none ∨ ∃ s, sel = some s ∧
        ((w.selections s).ranges = [] ∨
          editorContains env el (w.selections s).anchorNode = false)) := by
  cases sel with
  | none => simp [hasCaret]
  | some s =>
    simp only [hasCaret, Bool.and_eq_false_iff, decide_eq_false_iff_not, false_or,
      Option.some.injEq, exists_eq_left', reduceCtorEq]
    constructor
    · rintro (h | h)
      · exact Or.inl (List.length_eq_zero.mp (by omega))
      · exact Or.inr h
    · rintro (h | h)
      · exact Or.inl (by simp [h])
      · exact Or.inr h

/-- The last lines of `insertHTML` do what the function `fallbackInsert`
does. -/
theorem insertHTML_tail_eq_fallbackInsert (env : Env) (ctx : Ctx) (el : Element)
    (html : JSString) (w w1 w2 : World) (hel : ctx.editor = some el)
    (hc : caretStep env ctx el w = (.ok (), w1))
    (hp : tryPasteHTML env ctx html w1 = (false, w2)) :
    insertHTML env (some ctx) html w =
      (.ok (fallbackInsert env html w2).1, (fallbackInsert env html w2).2) := by
  simp only [insertHTML, hel, hc, andThen, hp, fallbackInsert]
  rcases execInsertHTML env html w2 with ⟨y, w3⟩
  cases y with
  | ok u => rfl
  | error e =>
    simp only []
    rcases insertAdjacentHTML env html w3 with ⟨z, w4⟩
    cases z <;> rfl

/-! ## Claims on the snapshot and on the clipboard payload -/

/-- C10. The snapshot of an editor is the decimal rendering of the length of
its serialized content, the separator `|`, and the decimal rendering of its
number of immediate children; two editor states have equal snapshots if and
only if they agree on both numbers, whatever their content. -/
theorem snapshotEditor_faithful :
    (∀ e : EditorState,
      snapshotEditor e = decimal e.innerHTML.length ++ [chBar] ++ decimal e.childNodes) ∧
    (∀ n : Nat, decimal n = (Nat.repr n).toList.map Char.toNat) ∧
    (∀ e1 e2 : EditorState,
      snapshotEditor e1 = snapshotEditor e2 ↔
        (e1.innerHTML.length = e2.innerHTML.length ∧ e1.childNodes = e2.childNodes)) := by
  refine ⟨fun _ => rfl, decimal_eq_repr, fun e1 e2 => ⟨fun h => ?_, fun h => ?_⟩⟩
  · obtain ⟨h1, h2⟩ := append_sep_inj chBar _ _ _ _
      (bar_not_mem_decimal _) (bar_not_mem_decimal _) h
    exact ⟨decimal_injective _ _ h1, decimal_injective _ _ h2⟩
  · unfold snapshotEditor
    rw [h.1, h.2]

/-- Two editor states with different content and the same snapshot. -/
theorem snapshotEditor_faithful_witness :
    snapshotEditor { innerHTML := utf16 "<p>a</p>", childNodes := 1 } =
      snapshotEditor { innerHTML := utf16 "<p>b</p>", childNodes := 1 } :=
  (snapshotEditor_faithful.2.2 _ _).mpr ⟨by decide, by decide⟩

/-- C4. In the clipboard payload built by `tryPasteHTML`, the data under
`text/plain` is the tag-stripped text of `html` cut to its first 64 code
units: exactly the first 64 when the stripped text is longer, the whole
stripped text otherwise, and never more than 64; the data under `text/html`
is `html` itself; and this payload is the one carried by the paste event that
`tryPasteHTML` dispatches. -/
theorem plainText_truncation (html : JSString) :
    getData textPlain (clipboardPayload html) = (replaceTags html).take 64 ∧
    (64 < (replaceTags html).length →
      (getData textPlain (clipboardPayload html)).length = 64 ∧
      getData textPlain (clipboardPayload html) ++ (replaceTags html).drop 64 =
        replaceTags html) ∧
    ((replaceTags html).length ≤ 64 →
      getData textPlain (clipboardPayload html) = replaceTags html) ∧
    (getData textPlain (clipboardPayload html)).length ≤ 64 ∧
    getData textHtml (clipboardPayload html) = html ∧
    (∀ (env : Env) (ctx : Ctx) (w : World) (p : DataTransfer),
      Event.dispatchEvent p ∈ newEvents w.log (tryPasteHTML env ctx html w).2.log →
        p = clipboardPayload html) := by
  have hp : getData textPlain (clipboardPayload html) = (replaceTags html).take 64 := by
    unfold clipboardPayload
    rw [getData_setData_same]
    simp [plainTextOf, slice0, orEmpty_eq]
  have hh : getData textHtml (clipboardPayload html) = html := by
    unfold clipboardPayload payloadHtml
    rw [getData_setData_other _ _ _ (by decide), getData_setData_same]
  refine ⟨hp, ?_, ?_, ?_, hh, ?_⟩
  · intro hlen
    rw [hp]
    exact ⟨by simp [List.length_take]; omega, List.take_append_drop _ _⟩
  · intro hlen
    rw [hp]
    exact List.take_of_length_le hlen
  · rw [hp]
    simp [List.length_take]
  · intro env ctx w p hmem
    obtain ⟨t, hl, _, _, hpay⟩ := tryPasteHTML_log env ctx html w
    rw [hl, List.append_assoc, newEvents_append] at hmem
    rcases List.mem_append.mp hmem with h | h
    · exact hpay p h
    · simp at h

/-- The payload for `<b>world</b>` carries `world` as plain text. -/
theorem plainText_truncation_witness :
    getData textPlain (clipboardPayload (utf16 "<b>world</b>")) = utf16 "world" :=
  ((plainText_truncation (utf16 "<b>world</b>")).2.2.1 (by decide)).trans (by decide)

/-! ## Claims on the Context Locator -/

/-- C6, as stated, fails. A visible frame whose candidate editor element has
zero rendered width is accepted by `findCtx`, and a frame of zero width whose
editor element has a non-zero width is rejected: the width `findCtx` tests is
that of the frame, not that of the editor element. -/
theorem findCtx_editor_width_counterexample :
    (pageHiddenEditor.document.marker = none ∧
      findCtx pageHiddenEditor =
        .ok { doc := hiddenEditorDocument, win := frameWithHiddenEditor.contentWindow,
              editor := some hiddenEditorElement } ∧
      hiddenEditorElement.width = 0 ∧
      findCtx pageHiddenEditor ≠ .ok (findCtxBySpec pageHiddenEditor)) ∧
    (pageZeroWidthFrame.document.marker = none ∧
      findCtx pageZeroWidthFrame =
        .ok { doc := topDocument, win := some topWindow, editor := none } ∧
      (findCtxBySpec pageZeroWidthFrame).editor = some editorElement ∧
      editorElement.width ≠ 0) := by
  decide

/-- C6, amended. When the top document has no marker element, `findCtx`
returns the context (nested document, frame window, editor element) of the
first frame, in document order, whose nested document is readable and has a
marker element and whose own rendered width is positive; a context with an
editor always comes from such a frame, so a frame of zero width is never
accepted; and when no frame qualifies the result is the not-found context,
whose editor is null. -/
theorem findCtx_first_accepted_frame (page : Page) (htop : page.document.marker = none) :
    (∀ f, frameAccepted f = true ↔
      ∃ fd ed, frameDocument f = .ok (some fd) ∧ fd.marker = some ed ∧ 0 < f.width) ∧
    findCtx page =
      .ok (match (page.frames.find? frameAccepted).bind frameCtx with
        | some c => c
        | none => { doc := page.document, win := some page.window, editor := none }) ∧
    (∀ pre f post, page.frames = pre ++ f :: post →
      (∀ g ∈ pre, frameAccepted g = false) →
      ∀ fd ed, frameDocument f = .ok (some fd) → fd.marker = some ed → 0 < f.width →
        findCtx page = .ok { doc := fd, win := f.contentWindow, editor := some ed }) ∧
    (∀ c ed, findCtx page = .ok c → c.editor = some ed →
      ∃ f ∈ page.frames, 0 < f.width ∧ frameDocument f = .ok (some c.doc) ∧
        c.doc.marker = some ed ∧ c.win = f.contentWindow) ∧
    ((∀ f ∈ page.frames, frameAccepted f = false) →
      findCtx page = .ok { doc := page.document, win := some page.window, editor := none }) := by
  have hfind : findCtx page =
      .ok (match (page.frames.find? frameAccepted).bind frameCtx with
        | some c => c
        | none => { doc := page.document, win := some page.window, editor := none }) := by
    unfold findCtx
    rw [htop]
    exact scanFrames_find _ _
  refine ⟨frameAccepted_iff, hfind, ?_, ?_, ?_⟩
  · intro pre f post hfr hpre fd ed hfd hed hw
    unfold findCtx
    rw [htop, hfr]
    simp only []
    rw [scanFrames_append_skip _ _ pre (fun g hg => tryFrame_of_not_accepted g (hpre g hg))]
    rw [scanFrames, (tryFrame_of_accepted f fd ed hfd hed hw).1]
  · intro c ed hc hed
    rw [hfind] at hc
    cases hf : page.frames.find? frameAccepted with
    | none =>
      rw [hf] at hc
      simp only [Option.bind_none, Except.ok.injEq] at hc
      rw [← hc] at hed
      simp at hed
    | some f =>
      have hacc : frameAccepted f = true := List.find?_some hf
      have hmem : f ∈ page.frames := List.mem_of_find?_eq_some hf
      obtain ⟨fd, ed2, hfd, hed2, hw⟩ := (frameAccepted_iff f).mp hacc
      have hctx := (tryFrame_of_accepted f fd ed2 hfd hed2 hw).2
      have hceq : c = { doc := fd, win := f.contentWindow, editor := some ed2 } := by
        rw [hf] at hc
        simp [hctx] at hc
        exact hc.symm
      subst hceq
      have hee : ed2 = ed := by simpa using hed
      subst hee
      exact ⟨f, hmem, hw, hfd, hed2, rfl⟩
  · intro hall
    rw [hfind]
    have hnone : page.frames.find? frameAccepted = none := by
      rw [List.find?_eq_none]
      intro f hf
      simp [hall f hf]
    rw [hnone]
    rfl

/-- On the page with a cross-origin frame followed by the editor frame,
`findCtx` returns the editor of the second frame. -/
theorem findCtx_first_accepted_frame_witness :
    findCtx pageNestedEditor =
      .ok { doc := nestedDocument, win := some nestedWindow, editor := some editorElement } :=
  (findCtx_first_accepted_frame pageNestedEditor rfl).2.2.1
    [crossOriginFrame] editorFrame [] rfl (by decide) nestedDocument editorElement rfl rfl
    (by decide)

/-- C7. Whatever frames cannot be read, `findCtx` does not raise; an unreadable
frame is passed over like a non-matching one; the result is that of `findCtx`
on the page without its unreadable frames; and a qualifying frame that comes
after unreadable (or non-qualifying) frames is found. -/
theorem findCtx_skips_unreadable (page : Page) :
    (∃ c, findCtx page = .ok c) ∧
    (∀ cur f rest, frameReadable f = false →
      scanFrames cur (f :: rest) = scanFrames cur rest) ∧
    findCtx page = findCtx (removeUnreadable page) ∧
    (page.document.marker = none →
      ∀ pre f post, page.frames = pre ++ f :: post →
        (∀ g ∈ pre, frameReadable g = false ∨ frameAccepted g = false) →
        ∀ fd ed, frameDocument f = .ok (some fd) → fd.marker = some ed → 0 < f.width →
          findCtx page = .ok { doc := fd, win := f.contentWindow, editor := some ed }) := by
  have hskip : ∀ g, frameReadable g = false → ∀ c, tryFrame g ≠ .ok (some c) := by
    intro g hg c hc
    obtain ⟨e, he⟩ := tryFrame_of_unreadable g hg
    rw [he] at hc
    cases hc
  refine ⟨?_, ?_, ?_, ?_⟩
  · unfold findCtx
    split
    · exact ⟨_, rfl⟩
    · exact ⟨_, scanFrames_find _ _⟩
  · intro cur f rest hf
    exact scanFrames_cons_skip cur f rest (hskip f hf)
  · unfold findCtx removeUnreadable
    simp only []
    split
    · rfl
    · exact (scanFrames_filter_readable _ _).symm
  · intro htop pre f post hfr hpre fd ed hfd hed hw
    unfold findCtx
    rw [htop, hfr]
    simp only []
    rw [scanFrames_append_skip _ _ pre (fun g hg => (hpre g hg).elim (hskip g)
      (tryFrame_of_not_accepted g))]
    rw [scanFrames, (tryFrame_of_accepted f fd ed hfd hed hw).1]

/-- The editor frame behind a cross-origin frame is found. -/
theorem findCtx_skips_unreadable_witness :
    frameReadable crossOriginFrame = false ∧
    findCtx pageNestedEditor =
      .ok { doc := nestedDocument, win := some nestedWindow, editor := some editorElement } :=
  ⟨by decide,
    (findCtx_skips_unreadable pageNestedEditor).2.2.2 rfl
      [crossOriginFrame] editorFrame [] rfl (by decide) nestedDocument editorElement rfl rfl
      (by decide)⟩

/-! ## Claims on the Insertion Engine -/

/-- C1. When the realm provides `DataTransfer` and `ClipboardEvent` and no step
raises, `tryPasteHTML` returns `true` if and only if the snapshot taken before
the dispatch differs from the snapshot taken after the yield or the default
action of the paste event was prevented (`dispatchEvent` returned `false`):
success when only the snapshots differ, success when only the default was
prevented, failure when neither holds. -/
theorem tryPasteHTML_success_signal (env : Env) (ctx : Ctx) (html : JSString) (w : World)
    (el : Element) (ed : EditorState) (ret : Bool)
    (hel : ctx.editor = some el)
    (hsup : pasteSupported env ctx = true)
    (hprims : ∀ p ∈ pastePrims, env.raises p = false)
    (hdisp : env.dispatchEvent w.editor (clipboardPayload html) = .ok (ed, ret)) :
    (tryPasteHTML env ctx html w).2.editor = env.settle ed ∧
    ((tryPasteHTML env ctx html w).1 = true ↔
      (snapshotEditor w.editor ≠ snapshotEditor (tryPasteHTML env ctx html w).2.editor ∨
        ret = false)) ∧
    (snapshotEditor w.editor ≠ snapshotEditor (env.settle ed) → ret = true →
      (tryPasteHTML env ctx html w).1 = true) ∧
    (snapshotEditor w.editor = snapshotEditor (env.settle ed) → ret = false →
      (tryPasteHTML env ctx html w).1 = true) ∧
    (snapshotEditor w.editor = snapshotEditor (env.settle ed) → ret = true →
      (tryPasteHTML env ctx html w).1 = false) := by
  have h1 := hprims .newDataTransfer (by simp [pastePrims])
  have h2 := hprims .setDataHtml (by simp [pastePrims])
  have h3 := hprims .setDataPlain (by simp [pastePrims])
  have h4 := hprims .newClipboardEvent (by simp [pastePrims])
  have h5 := hprims .defineProperty (by simp [pastePrims])
  unfold pasteSupported at hsup
  cases hw : ctx.win with
  | none => simp [hw] at hsup
  | some win =>
    simp only [hw, Bool.and_eq_true] at hsup
    have hval : tryPasteHTML env ctx html w =
        (decide (snapshotEditor w.editor ≠ snapshotEditor (env.settle ed)) || !ret,
          { editor := env.settle ed, focused := w.focused, selections := w.selections,
            log := w.log ++ [.call .newDataTransfer, .call .setDataHtml, .call .setDataPlain,
              .call .newClipboardEvent, .call .defineProperty,
              .dispatchEvent (clipboardPayload html), .timeout 30,
              .pasteReturned
                (decide (snapshotEditor w.editor ≠ snapshotEditor (env.settle ed)) ||
                  !ret)] }) := by
      simp [tryPasteHTML, tryPasteBody, dispatchPaste, andThen, prim, World.record, hw, hsup.1,
        hsup.2, h1, h2, h3, h4, h5, hel, hdisp]
    rw [hval]
    refine ⟨rfl, ?_, ?_, ?_, ?_⟩
    · cases ret <;> simp
    · intro hne hr
      simp [hne]
    · intro _ hr
      simp [hr]
    · intro he hr
      simp [he, hr]

/-- In the realm whose host inserts the pasted HTML and leaves the default action
alone, `tryPasteHTML` reports success. -/
theorem tryPasteHTML_success_signal_witness :
    (tryPasteHTML pasteEnv editorCtx (utf16 "<b>world</b>") helloWorld).1 = true :=
  (tryPasteHTML_success_signal pasteEnv editorCtx (utf16 "<b>world</b>") helloWorld
    editorElement
    { innerHTML := utf16 "<p>hello</p><b>world</b>", childNodes := 2 } true
    rfl (by decide) (by decide) (by decide)).2.2.1 (by decide) rfl

/-- C2 fails on the code. For a context whose frame has been removed, both
selection reads return null; `moveCaretToEnd` then calls `removeAllRanges` on
null, outside any `try`, and the `TypeError` escapes `insertHTML`. -/
theorem insertHTML_raises_when_detached :
    (insertHTML detachedEnv (some editorCtx) (utf16 "<b>world</b>") helloWorld).1 =
      .error .typeError ∧
    (insertHTML detachedEnv (some editorCtx) (utf16 "<b>world</b>") helloWorld).2.log =
      [.call .focus, .getSelection .ctxWin, .getSelection .ctxDoc, .call .createRange,
        .call .selectNodeContents, .call .collapse] := by
  decide

/-- C3. In a call of `insertHTML` with an editor, the strategy-level events
are, in order, one of: none (caret establishment raised); a successful paste;
a failed paste and the legacy command; a failed paste, the legacy command that
raised, and the trailing append.  So the legacy command is invoked only after
the simulated paste has reported failure, the trailing append only after a
failed paste and a legacy command that raised, the legacy command comes before
the trailing append, and each strategy (and the dispatch of the paste event)
happens at most once. -/
theorem insertHTML_fallback_order (env : Env) (ctx : Ctx) (el : Element) (html : JSString)
    (w : World) (hel : ctx.editor = some el) :
    ((strategyTrace env ctx html w = [] ∧
        ∃ e, (insertHTML env (some ctx) html w).1 = .error e) ∨
     (strategyTrace env ctx html w = [.pasteReturned true] ∧
        (insertHTML env (some ctx) html w).1 = .ok true) ∨
     (strategyTrace env ctx html w = [.pasteReturned false, .execCommand html false] ∧
        (insertHTML env (some ctx) html w).1 = .ok true) ∨
     (strategyTrace env ctx html w =
          [.pasteReturned false, .execCommand html true, .insertAdjacentHTML html false] ∧
        (insertHTML env (some ctx) html w).1 = .ok true) ∨
     (strategyTrace env ctx html w =
          [.pasteReturned false, .execCommand html true, .insertAdjacentHTML html true] ∧
        (insertHTML env (some ctx) html w).1 = .ok false)) ∧
    ((newEvents w.log (insertHTML env (some ctx) html w).2.log).filter
      Event.isDispatch).length ≤ 1 ∧
    ((strategyTrace env ctx html w).filter Event.isPasteReturn).length ≤ 1 ∧
    ((strategyTrace env ctx html w).filter Event.isExecCommand).length ≤ 1 ∧
    ((strategyTrace env ctx html w).filter Event.isInsertAdjacent).length ≤ 1 ∧
    (∀ i e, (strategyTrace env ctx html w)[i]? = some e → e.isExecCommand = true →
      i = 1 ∧ (strategyTrace env ctx html w)[0]? = some (.pasteReturned false)) ∧
    (∀ i e, (strategyTrace env ctx html w)[i]? = some e → e.isInsertAdjacent = true →
      i = 2 ∧ (strategyTrace env ctx html w)[0]? = some (.pasteReturned false) ∧
        (strategyTrace env ctx html w)[1]? = some (.execCommand html true)) := by
  obtain ⟨t, hl, hd, _, hshape⟩ := insertHTML_log env ctx el html w hel
  have hst : strategyTrace env ctx html w = t.filter Event.isStrategy := by
    unfold strategyTrace
    rw [hl, newEvents_append]
  have hnew : newEvents w.log (insertHTML env (some ctx) html w).2.log = t := by
    rw [hl, newEvents_append]
  rw [hst, hnew]
  have horder := strategy_shape_order html (t.filter Event.isStrategy) (by
    rcases hshape with h | h | h | h | h
    · exact Or.inl h.1
    · exact Or.inr (Or.inl h.1)
    · exact Or.inr (Or.inr (Or.inl h.1))
    · exact Or.inr (Or.inr (Or.inr (Or.inl h.1)))
    · exact Or.inr (Or.inr (Or.inr (Or.inr h.1))))
  exact ⟨hshape, hd, horder⟩

/-- In the realm whose host ignores the paste event, the strategy events are
the failed paste followed by the legacy command. -/
theorem insertHTML_fallback_order_witness :
    strategyTrace legacyEnv editorCtx (utf16 "<b>world</b>") helloWorld =
      [.pasteReturned false, .execCommand (utf16 "<b>world</b>") false] ∧
    ((strategyTrace legacyEnv editorCtx (utf16 "<b>world</b>") helloWorld).filter
      Event.isExecCommand).length ≤ 1 :=
  ⟨by decide,
    (insertHTML_fallback_order legacyEnv editorCtx editorElement (utf16 "<b>world</b>")
      helloWorld rfl).2.2.2.1⟩

/-- C5. With a null context, or a context whose editor is null, `insertHTML`
returns `false` at once: the world is unchanged, and its log shows that no
DOM call was made. -/
theorem insertHTML_null_guard (env : Env) (html : JSString) (w : World) :
    insertHTML env none html w = (.ok false, w) ∧
    (∀ ctx : Ctx, ctx.editor = none → insertHTML env (some ctx) html w = (.ok false, w)) := by
  refine ⟨rfl, ?_⟩
  intro ctx h
  simp [insertHTML, h]

/-- The not-found context of `findCtx` is refused without any effect. -/
theorem insertHTML_null_guard_witness :
    insertHTML scenarioEnv
        (some { doc := topDocument, win := some topWindow, editor := none })
        (utf16 "<b>world</b>") helloWorld = (.ok false, helloWorld) :=
  (insertHTML_null_guard scenarioEnv (utf16 "<b>world</b>") helloWorld).2 _ rfl

/-- C8, as stated, fails. With an input whose serialization differs from it
(`<b>world`, which the browser closes), `insertHTML` returns `true` but the
final content is not the initial content followed by the input.  And for a
context whose frame has been removed, the paste is unsupported, the legacy
command raises and the trailing append would not raise, yet `insertHTML`
raises instead of returning `true`. -/
theorem insertHTML_trailing_append_counterexample :
    (pasteSupported scenarioEnv editorCtx = false ∧
      scenarioEnv.execCommand helloWorld (utf16 "<b>world") = .error .domException ∧
      scenarioEnv.insertAdjacentRaises helloWorld (utf16 "<b>world") = false ∧
      (insertHTML scenarioEnv (some editorCtx) (utf16 "<b>world") helloWorld).1 = .ok true ∧
      (insertHTML scenarioEnv (some editorCtx) (utf16 "<b>world")
          helloWorld).2.editor.innerHTML = utf16 "<p>hello</p><b>world</b>" ∧
      (insertHTML scenarioEnv (some editorCtx) (utf16 "<b>world")
          helloWorld).2.editor.innerHTML ≠ utf16 "<p>hello</p>" ++ utf16 "<b>world") ∧
    (pasteSupported detachedEnv editorCtx = false ∧
      detachedEnv.execCommand helloWorld (utf16 "<b>world</b>") = .error .domException ∧
      detachedEnv.insertAdjacentRaises helloWorld (utf16 "<b>world</b>") = false ∧
      (insertHTML detachedEnv (some editorCtx) (utf16 "<b>world</b>") helloWorld).1 ≠
        .ok true) := by
  decide

/-- C8, amended. Suppose caret establishment completes and the legacy command
raises.  If the simulated paste is unsupported in the realm and the trailing
append does not raise, `insertHTML` returns `true` and the final serialized
content of the editor is the initial content followed by the serialization of
the fragment `html` parses into, which is `html` itself when `html` is in
serialized form.  If the simulated paste fails and the trailing append raises
too, `insertHTML` returns `false`. -/
theorem insertHTML_trailing_append (env : Env) (ctx : Ctx) (el : Element) (html : JSString)
    (w : World) (hel : ctx.editor = some el)
    (hcaret : (caretStep env ctx el w).1 = .ok ())
    (hexec : ∀ v, ∃ e, env.execCommand v html = .error e) :
    (pasteSupported env ctx = false → (∀ v, env.insertAdjacentRaises v html = false) →
      (insertHTML env (some ctx) html w).1 = .ok true ∧
      (insertHTML env (some ctx) html w).2.editor.innerHTML =
        w.editor.innerHTML ++ env.serializeFragment html ∧
      (env.serializeFragment html = html →
        (insertHTML env (some ctx) html w).2.editor.innerHTML = w.editor.innerHTML ++ html)) ∧
    ((tryPasteHTML env ctx html (caretStep env ctx el w).2).1 = false →
      (∀ v, env.insertAdjacentRaises v html = true) →
      (insertHTML env (some ctx) html w).1 = .ok false) := by
  obtain ⟨_, _, _, hed⟩ := caretStep_quiet env ctx el w
  rcases hcs : caretStep env ctx el w with ⟨x, w1⟩
  rw [hcs] at hcaret hed
  replace hed : w1.editor = w.editor := hed
  cases x with
  | error e => simp at hcaret
  | ok u =>
    constructor
    · intro hsup happ
      obtain ⟨e, he⟩ := hexec (w1.record (.pasteReturned false))
      have hres : (insertHTML env (some ctx) html w).1 = .ok true ∧
          (insertHTML env (some ctx) html w).2.editor.innerHTML =
            w.editor.innerHTML ++ env.serializeFragment html := by
        simp only [insertHTML, hel, hcs, andThen,
          tryPasteHTML_unsupported env ctx html w1 hsup, execInsertHTML]
        rw [he]
        simp [insertAdjacentHTML, happ, World.record, hed]
      refine ⟨hres.1, hres.2, ?_⟩
      intro hser
      rw [hres.2, hser]
    · intro hfail happ
      simp only [] at hfail
      rcases hp : tryPasteHTML env ctx html w1 with ⟨ok, w2⟩
      rw [hp] at hfail
      replace hfail : ok = false := hfail
      subst hfail
      obtain ⟨e, he⟩ := hexec w2
      simp only [insertHTML, hel, hcs, andThen, hp, execInsertHTML]
      rw [he]
      simp [insertAdjacentHTML, happ]

/-- The end-to-end scenario: the editor holds `<p>hello</p>`, the input is
`<b>world</b>`, the paste is unsupported, the legacy command raises and the
trailing append works, with the calls that are made, in order; and the same
scenario with a trailing append that raises. -/
theorem insertHTML_trailing_append_witness :
    ((insertHTML scenarioEnv (some editorCtx) (utf16 "<b>world</b>") helloWorld).1 = .ok true ∧
      (insertHTML scenarioEnv (some editorCtx) (utf16 "<b>world</b>")
          helloWorld).2.editor.innerHTML = utf16 "<p>hello</p>" ++ utf16 "<b>world</b>") ∧
    (insertHTML scenarioEnv (some editorCtx) (utf16 "<b>world</b>") helloWorld).2.log =
      [.call .focus, .getSelection .ctxWin, .pasteReturned false,
        .execCommand (utf16 "<b>world</b>") true,
        .insertAdjacentHTML (utf16 "<b>world</b>") false] ∧
    (insertHTML failingEnv (some editorCtx) (utf16 "<b>world</b>") helloWorld).1 = .ok false :=
  ⟨⟨((insertHTML_trailing_append scenarioEnv editorCtx editorElement (utf16 "<b>world</b>")
        helloWorld rfl (by decide) (fun _ => ⟨.domException, rfl⟩)).1 (by decide)
          (fun _ => rfl)).1,
      ((insertHTML_trailing_append scenarioEnv editorCtx editorElement (utf16 "<b>world</b>")
        helloWorld rfl (by decide) (fun _ => ⟨.domException, rfl⟩)).1 (by decide)
          (fun _ => rfl)).2.2 (by decide)⟩,
    by decide,
    (insertHTML_trailing_append failingEnv editorCtx editorElement (utf16 "<b>world</b>")
      helloWorld rfl (by decide) (fun _ => ⟨.domException, rfl⟩)).2 (by decide) (fun _ => rfl)⟩

/-- C9, as stated, fails. For a context whose frame has been removed the
selection is absent, the step has to synthesize one, and it raises: no
selection object holds a range afterwards.  For an editor that has been
removed from its document the step completes, but the selection ignores the
range of the removed editor: it has no range after the first run and none
after the second. -/
theorem caretStep_synthesis_counterexample :
    ((readSelection detachedEnv editorCtx helloWorld).1 = .ok none ∧
      hasCaret detachedEnv editorElement (focusEditor detachedEnv helloWorld) none = false ∧
      (caretStep detachedEnv editorCtx editorElement helloWorld).1 = .error .typeError ∧
      (∀ s, ((caretStep detachedEnv editorCtx editorElement helloWorld).2.selections
        s).ranges = [])) ∧
    ((readSelection remountedEnv editorCtx helloWorld).1 = .ok (some 0) ∧
      hasCaret remountedEnv editorElement (focusEditor remountedEnv helloWorld) (some 0) =
        false ∧
      (caretStep remountedEnv editorCtx editorElement helloWorld).1 = .ok () ∧
      ((caretStep remountedEnv editorCtx editorElement helloWorld).2.selections 0).ranges =
        [] ∧
      ((caretStep remountedEnv editorCtx editorElement
          (caretStep remountedEnv editorCtx editorElement helloWorld).2).2.selections
        0).ranges = []) :=
  ⟨⟨by decide, by decide, by decide, fun _ => rfl⟩, by decide⟩

/-- C9, amended. The caret-establishment step run a second time, right after a
first run, has the outcome of the first run and leaves the selection objects,
the editor and the focus as the first run left them.  And when the first run
completed and had to synthesize a selection (the selection read after the
focus call was null, or had no range, or was anchored outside the editor),
the selection object it used holds, after the first run and after the second,
exactly one range, collapsed at the end of the editor's content, provided the
selection accepts a range of the editor; a selection that does not accept it
has no range after either run. -/
theorem caretStep_idempotent (env : Env) (ctx : Ctx) (el : Element) (w : World) :
    ((caretStep env ctx el (caretStep env ctx el w).2).1 = (caretStep env ctx el w).1 ∧
      (caretStep env ctx el (caretStep env ctx el w).2).2.selections =
        (caretStep env ctx el w).2.selections ∧
      (caretStep env ctx el (caretStep env ctx el w).2).2.editor =
        (caretStep env ctx el w).2.editor ∧
      (caretStep env ctx el (caretStep env ctx el w).2).2.focused =
        (caretStep env ctx el w).2.focused) ∧
    ((caretStep env ctx el w).1 = .ok () →
      ∀ sel, (readSelection env ctx w).1 = .ok sel →
        hasCaret env el (focusEditor env w) sel = false →
        ∃ s, (caretTarget env ctx sel w).1 = .ok (some s) ∧
          (env.acceptsRange s = true →
            (caretStep env ctx el w).2.selections s =
              { ranges := [{ startContainer := el.id, startOffset := w.editor.childNodes,
                             endContainer := el.id, endOffset := w.editor.childNodes }],
                anchorNode := some el.id } ∧
            (caretStep env ctx el (caretStep env ctx el w).2).2.selections s =
              { ranges := [{ startContainer := el.id, startOffset := w.editor.childNodes,
                             endContainer := el.id, endOffset := w.editor.childNodes }],
                anchorNode := some el.id }) ∧
          (env.acceptsRange s = false →
            (caretStep env ctx el w).2.selections s = { ranges := [], anchorNode := none } ∧
            (caretStep env ctx el (caretStep env ctx el w).2).2.selections s =
              { ranges := [], anchorNode := none })) := by
  obtain ⟨hval, hsame⟩ := caretStep_again env ctx el w
  refine ⟨⟨hval, hsame.1, hsame.2.1, hsame.2.2⟩, ?_⟩
  intro h1 sel hsel hno
  obtain ⟨s, ht, hs⟩ := caretStep_synthesized env ctx el w sel h1 hsel hno
  refine ⟨s, ht, ?_, ?_⟩
  · intro hacc
    have hv : (caretStep env ctx el w).2.selections s =
        { ranges := [{ startContainer := el.id, startOffset := w.editor.childNodes,
                       endContainer := el.id, endOffset := w.editor.childNodes }],
          anchorNode := some el.id } := by
      rw [hs]
      simp [installedCaret, hacc, Selection.single, caretRange]
    exact ⟨hv, by rw [hsame.1]; exact hv⟩
  · intro hacc
    have hv : (caretStep env ctx el w).2.selections s =
        { ranges := [], anchorNode := none } := by
      rw [hs]
      simp [installedCaret, hacc, Selection.empty]
    exact ⟨hv, by rw [hsame.1]; exact hv⟩

/-- Three runs. The editor has the focus and the selection has been emptied:
the first run installs the caret at the end of the editor and the second run
leaves it there.  The window hands out no selection object but the document
does: the same happens on the selection of the document.  The editor has not
the focus yet: the focus call places a caret at the start of the editor, the
first run keeps it and so does the second. -/
theorem caretStep_idempotent_witness :
    ((caretStep scenarioEnv editorCtx editorElement focusedWorld).2.selections 0 =
        { ranges := [{ startContainer := 7, startOffset := 1,
                       endContainer := 7, endOffset := 1 }], anchorNode := some 7 } ∧
      (caretStep scenarioEnv editorCtx editorElement
          (caretStep scenarioEnv editorCtx editorElement focusedWorld).2).2.selections 0 =
        { ranges := [{ startContainer := 7, startOffset := 1,
                       endContainer := 7, endOffset := 1 }], anchorNode := some 7 }) ∧
    ((caretStep docSelectionEnv editorCtx editorElement focusedWorld).2.selections 0 =
        { ranges := [{ startContainer := 7, startOffset := 1,
                       endContainer := 7, endOffset := 1 }], anchorNode := some 7 } ∧
      (caretStep docSelectionEnv editorCtx editorElement
          (caretStep docSelectionEnv editorCtx editorElement focusedWorld).2).2.selections 0 =
        { ranges := [{ startContainer := 7, startOffset := 1,
                       endContainer := 7, endOffset := 1 }], anchorNode := some 7 }) ∧
    (caretStep scenarioEnv editorCtx editorElement
        (caretStep scenarioEnv editorCtx editorElement helloWorld).2).2.selections 0 =
      { ranges := [{ startContainer := 7, startOffset := 0,
                     endContainer := 7, endOffset := 0 }], anchorNode := some 7 } := by
  refine ⟨?_, ?_, ?_⟩
  · obtain ⟨s, ht, hacc, _⟩ :=
      (caretStep_idempotent scenarioEnv editorCtx editorElement focusedWorld).2 (by decide)
        (some 0) rfl (by decide)
    have hs : s = 0 := by
      have h0 : (Except.ok (some 0) : Except Err (Option Nat)) = .ok (some s) := ht
      simpa using h0.symm
    subst hs
    exact hacc rfl
  · obtain ⟨s, ht, hacc, _⟩ :=
      (caretStep_idempotent docSelectionEnv editorCtx editorElement focusedWorld).2 (by decide)
        none rfl (by decide)
    have hs : s = 0 := by
      have h0 : (Except.ok (some 0) : Except Err (Option Nat)) = .ok (some s) := ht
      simpa using h0.symm
    subst hs
    exact hacc rfl
  · rw [(caretStep_idempotent scenarioEnv editorCtx editorElement helloWorld).1.2.1]
    decide

end WechatMPEditor
